import Mathlib

/-!
# Verification of the mdi-llmkit iterative JSON-surgery engine

This development is a shallow embedding of the `json_surgery` package of
`mdi-llmkit` (files `json_surgery/json_surgery.py` and
`json_surgery/placemarked_json.py`).

## Modelling conventions

* Python JSON-like values are modelled by `PyJson`.  Mutable containers
  (Python `list` and `dict`) carry an *object identifier* (`oid : Nat`),
  which models Python object identity (`id(x)` / the `is` operator) for
  containers.  Two values are "the same object" when they share container
  identifiers; they are *structurally* equal when `structEq` holds (which
  ignores identifiers).  Immutable scalars (None, bool, int, str) carry no
  identifier, matching the fact that object identity is not observable for
  them through mutation.
* Numbers are modelled as `Int` (the documents the engine manipulates in
  its tests use integral numbers; float-specific behaviour is out of scope).
* `_deep_copy_json` (`json.loads(json.dumps(x))`) is modelled by
  `deep_copy_json`, which allocates fresh identifiers from a counter
  threaded through the whole session.  The JSON round trip also converts
  non-string dictionary keys to their decimal-string form, which the model
  reproduces.
* In-place mutation of a container reached through a JSON path is modelled
  by rebuilding the tree along the path while *keeping every identifier on
  the rebuilt spine* (`setAtPath`); the identifier of the container that the
  Python code mutates in place is recorded in a mutation log, so that the
  frame property "the engine never mutates an object belonging to the
  caller" is expressible as: every logged identifier is fresh.
* The LLM transport is the external collaborator: each loop iteration's
  collaborator replies (the formalized modification batch, the verification
  verdict, the measured elapsed seconds) are provided by a trace of
  `IterEvent`s.  Caller-supplied callbacks are modelled as Lean functions.
* Conversation strings (prompts, placemarked rendering) have no effect on
  the document or control flow and are not modelled; the entries of
  `operations_done_so_far` are modelled by the inductive `HistoryEntry`
  that records exactly the data interpolated into the corresponding
  Python strings.
-/

/-- A JSON path element: a string key or an integer index
(`json_path: list[str | int]` in `placemarked_json.py`). -/
inductive Koi where
  | s (k : String)
  | i (n : Int)
deriving DecidableEq, Repr

/-- Python JSON-like values.  `arr`/`obj` carry the object identifier of the
underlying Python `list`/`dict` object.  Dictionary keys are `Koi` because
Python allows both string and integer keys (`target_parent[key_or_index]`
with a numeric `key_or_index` creates an integer key). -/
inductive PyJson where
  | null
  | bool (b : Bool)
  | num (n : Int)
  | str (s : String)
  | arr (oid : Nat) (items : List PyJson)
  | obj (oid : Nat) (entries : List (Koi × PyJson))
deriving Repr

/-- Python truthiness of a JSON-like value: `None`, `False`, `0`, `""`,
`[]` and `{}` are falsy, everything else truthy. -/
def truthy : PyJson → Bool
  | .null => false
  | .bool b => b
  | .num n => n != 0
  | .str s => s ≠ ""
  | .arr _ items => !items.isEmpty
  | .obj _ entries => !entries.isEmpty

/-- Is the value a Python `dict` or `list` (the only containers the engine
mutates)? -/
def isContainer : PyJson → Bool
  | .arr _ _ => true
  | .obj _ _ => true
  | _ => false

/-- The object identifier of a container (junk value 0 on scalars; only ever
used on containers). -/
def oidOf : PyJson → Nat
  | .arr oid _ => oid
  | .obj oid _ => oid
  | _ => 0

mutual
/-- All container object identifiers occurring in a value: the footprint of
the Python object graph rooted at the value. -/
def idsOf : PyJson → List Nat
  | .null | .bool _ | .num _ | .str _ => []
  | .arr oid items => oid :: idsOfList items
  | .obj oid entries => oid :: idsOfEntries entries

def idsOfList : List PyJson → List Nat
  | [] => []
  | x :: xs => idsOf x ++ idsOfList xs

def idsOfEntries : List (Koi × PyJson) → List Nat
  | [] => []
  | (_, v) :: xs => idsOf v ++ idsOfEntries xs
end

mutual
/-- Structural equality of JSON values: what Python `==` computes on the
results of `json.dumps` round trips (identifiers are ignored; our documents
keep insertion order, which the JSON round trips preserve). -/
def structEq : PyJson → PyJson → Bool
  | .null, .null => true
  | .bool a, .bool b => a == b
  | .num a, .num b => a == b
  | .str a, .str b => a == b
  | .arr _ xs, .arr _ ys => structEqList xs ys
  | .obj _ xs, .obj _ ys => structEqEntries xs ys
  | _, _ => false

def structEqList : List PyJson → List PyJson → Bool
  | [], [] => true
  | x :: xs, y :: ys => structEq x y && structEqList xs ys
  | _, _ => false

def structEqEntries : List (Koi × PyJson) → List (Koi × PyJson) → Bool
  | [], [] => true
  | (k, v) :: xs, (k', v') :: ys => k = k' && structEq v v' && structEqEntries xs ys
  | _, _ => false
end

mutual
/-- Does every dictionary in the value use only string keys?  This holds for
every JSON document a caller can pass in (JSON object keys are strings). -/
def allStrKeys : PyJson → Bool
  | .null | .bool _ | .num _ | .str _ => true
  | .arr _ items => allStrKeysList items
  | .obj _ entries => allStrKeysEntries entries

def allStrKeysList : List PyJson → Bool
  | [] => true
  | x :: xs => allStrKeys x && allStrKeysList xs

def allStrKeysEntries : List (Koi × PyJson) → Bool
  | [] => true
  | (k, v) :: xs => (match k with | .s _ => true | .i _ => false)
      && allStrKeys v && allStrKeysEntries xs
end

/-- The key conversion performed by `json.dumps` on a dictionary key:
integer keys become their decimal-string form. -/
def dumpKey : Koi → Koi
  | .s k => .s k
  | .i n => .s (toString n)

mutual
/-- `_deep_copy_json(value)`, i.e. `json.loads(json.dumps(value))`
(json_surgery.py lines 141-142), instrumented with an allocation counter:
every container in the result is a fresh Python object, so it receives a
fresh identifier taken from the counter.  Scalars are immutable and copied
as-is.  Like the JSON round trip, integer dictionary keys become strings. -/
def deep_copy_json : PyJson → Nat → PyJson × Nat
  | .null, c => (.null, c)
  | .bool b, c => (.bool b, c)
  | .num n, c => (.num n, c)
  | .str s, c => (.str s, c)
  | .arr _ items, c =>
      let (items', c') := deepCopyList items c
      (.arr c' items', c' + 1)
  | .obj _ entries, c =>
      let (entries', c') := deepCopyEntries entries c
      (.obj c' entries', c' + 1)

def deepCopyList : List PyJson → Nat → List PyJson × Nat
  | [], c => ([], c)
  | x :: xs, c =>
      let (x', c') := deep_copy_json x c
      let (xs', c'') := deepCopyList xs c'
      (x' :: xs', c'')

def deepCopyEntries : List (Koi × PyJson) → Nat → List (Koi × PyJson) × Nat
  | [], c => ([], c)
  | (k, v) :: xs, c =>
      let (v', c') := deep_copy_json v c
      let (xs', c'') := deepCopyEntries xs c'
      ((dumpKey k, v') :: xs', c'')
end

/-- Two values share no container objects (no aliasing between them). -/
def IdDisjoint (a b : PyJson) : Prop := ∀ i ∈ idsOf a, i ∉ idsOf b

/-- All container identifiers of `v` are at least `n` (they were allocated
at or after counter value `n`). -/
def IdsGe (n : Nat) (v : PyJson) : Prop := ∀ i ∈ idsOf v, n ≤ i

/-! ## Python container primitives

These model the exact Python `dict`/`list` operations the engine performs.
Dictionaries are insertion-ordered association lists with unique keys (the
model's operations preserve uniqueness, and lookup/assignment act on the
first occurrence, which is the only occurrence for dictionaries built by
the engine). -/

/-- `d[k]` read on a dict: the value bound to `k`, if present. -/
def dictGet? : List (Koi × PyJson) → Koi → Option PyJson
  | [], _ => none
  | (k', v) :: rest, k => if k' = k then some v else dictGet? rest k

/-- `k in d`. -/
def dictContains (es : List (Koi × PyJson)) (k : Koi) : Bool :=
  (dictGet? es k).isSome

/-- `d[k] = v`: overwrite in place if the key is present (keeping its
position, as Python dicts do), otherwise append a new entry at the end. -/
def dictSet : List (Koi × PyJson) → Koi → PyJson → List (Koi × PyJson)
  | [], k, v => [(k, v)]
  | (k', v') :: rest, k, v =>
      if k' = k then (k', v) :: rest else (k', v') :: dictSet rest k v

/-- `d.pop(k, None)`: remove the key if present, otherwise leave the dict
unchanged (never an error). -/
def dictPop : List (Koi × PyJson) → Koi → List (Koi × PyJson)
  | [], _ => []
  | (k', v') :: rest, k =>
      if k' = k then rest else (k', v') :: dictPop rest k

/-- Python sequence index normalization: `0 <= n < len` is used as is,
`-len <= n < 0` counts from the end, anything else is out of range. -/
def normIdx (n : Int) (len : Nat) : Option Nat :=
  if 0 ≤ n ∧ n < len then some n.toNat
  else if -(len : Int) ≤ n ∧ n < 0 then some (len + n).toNat
  else none

/-- `xs.insert(i, v)` (Python `list.insert`): the index is clamped, never
out of range — negative indices count from the end and clamp at 0, indices
past the end clamp to the length. -/
def listInsAt (xs : List PyJson) (i : Int) (v : PyJson) : List PyJson :=
  let j : Nat := if i < 0 then ((xs.length : Int) + i).toNat else min i.toNat xs.length
  xs.take j ++ v :: xs.drop j

/-- The errors a single Python subscript `parent[key_or_index]` can raise. -/
inductive LookupErr where
  | keyError (k : Koi)
  | indexError
  | typeError
deriving DecidableEq, Repr

/-- One Python subscript `parent[koi]`.  Dicts look keys up directly
(`KeyError` when absent); lists accept integer indices with negative-index
wraparound (`IndexError` out of range, `TypeError` on a string index);
strings are subscriptable too and yield one-character strings; all other
values raise `TypeError`. -/
def pyLookup : PyJson → Koi → Except LookupErr PyJson
  | .obj _ es, k =>
      match dictGet? es k with
      | some v => .ok v
      | none => .error (.keyError k)
  | .arr _ xs, .i n =>
      match normIdx n xs.length with
      | some j =>
          match xs[j]? with
          | some v => .ok v
          | none => .error .indexError
      | none => .error .indexError
  | .arr _ _, .s _ => .error .typeError
  | .str s, .i n =>
      match normIdx n s.length with
      | some j =>
          match s.toList[j]? with
          | some ch => .ok (.str (String.mk [ch]))
          | none => .error .indexError
      | none => .error .indexError
  | .str _, .s _ => .error .typeError
  | _, _ => .error .typeError

/-! ## Path navigation (`placemarked_json.navigate_to_json_path`) -/

/-- How `navigate_to_json_path` fails.  `falsyParent` is the explicit
`ValueError` of lines 97-101 ("parent of path element ... is null or
undefined"), raised whenever the value about to be subscripted is falsy; it
carries the full path and the element it names.  `lookup` is an uncaught
Python `KeyError` / `IndexError` / `TypeError` escaping from
`path_parent[path_key_or_index]` on line 102, tagged with the element at
which it happened. -/
inductive NavErr where
  | falsyParent (jsonPath : List Koi) (elem : Koi)
  | lookup (elem : Koi) (e : LookupErr)
deriving DecidableEq, Repr

/-- The dictionary returned by `navigate_to_json_path` (lines 104-108). -/
structure NavOut where
  path_parent : Option PyJson
  path_key_or_index : Option Koi
  path_target : PyJson
deriving Repr

/-- The loop of `navigate_to_json_path`: at each path element the current
target becomes the parent; a falsy parent raises the descriptive
`ValueError`; otherwise the next target is `parent[elem]`. -/
def navigateAux (fullPath : List Koi) (parent : Option PyJson) (koi : Option Koi)
    (target : PyJson) : List Koi → Except NavErr NavOut
  | [] => .ok ⟨parent, koi, target⟩
  | k :: rest =>
      if truthy target then
        match pyLookup target k with
        | .ok next => navigateAux fullPath (some target) (some k) next rest
        | .error e => .error (.lookup k e)
      else
        .error (.falsyParent fullPath k)

/-- `navigate_to_json_path(obj, json_path)` (placemarked_json.py lines
89-108). -/
def navigate_to_json_path (obj : PyJson) (jsonPath : List Koi) :
    Except NavErr NavOut :=
  navigateAux jsonPath none none obj jsonPath

/-- The navigation contract as the specification words it (section 4.1):
walk the path left to right, at each step obtaining the next node by
keyed/indexed lookup, with no extra test on the parent.  Used only to
compare `navigate_to_json_path` against the spec's description. -/
def plainLookupWalk : PyJson → List Koi → Except LookupErr PyJson
  | t, [] => .ok t
  | t, k :: rest =>
      match pyLookup t k with
      | .ok next => plainLookupWalk next rest
      | .error e => .error e

/-! ## Write-back of an in-place container mutation

`json_surgery` mutates `target_parent` — the object `navigate_to_json_path`
returned — in place, which in tree form replaces the subtree at the path
while every container on the spine keeps its identity. -/

/-- Replace the value reached by `path` with `newChild`, keeping the
identifier of every container along the spine (in-place mutation seen from
the root).  Returns `none` when the path cannot be walked; the engine only
calls this after `navigate_to_json_path` succeeded on the same path with a
dict/list target, which guarantees success (`setAtPath_of_navigate`). -/
def setAtPath : PyJson → List Koi → PyJson → Option PyJson
  | _, [], newChild => some newChild
  | .arr aid xs, .i n :: rest, newChild =>
      match normIdx n xs.length with
      | some j =>
          match xs[j]? with
          | some child =>
              (setAtPath child rest newChild).map (fun c' => .arr aid (xs.set j c'))
          | none => none
      | none => none
  | .arr _ _, .s _ :: _, _ => none
  | .obj oid es, k :: rest, newChild =>
      match dictGet? es k with
      | some child =>
          (setAtPath child rest newChild).map (fun c' => .obj oid (dictSet es k c'))
      | none => none
  | _, _ :: _, _ => none

/-! ## The tagged-value envelope codec -/

/-- The closed value envelope of `JSON_SCHEMA_SET_VALUE` (json_surgery.py
lines 14-109): exactly one tag per envelope, populated objects transported
as ordered key/value pair lists. -/
inductive Envelope where
  | string_value (s : String)
  | numerical_value (n : Int)
  | boolean_value (b : Bool)
  | null_value
  | empty_object
  | empty_array
  | populated_array (items : List Envelope)
  | populated_object (pairs : List (String × Envelope))
deriving Repr

mutual
/-- `_unpack_value_from_set_value_schema` (lines 145-169), instrumented
with the allocation counter: every container the decoder builds is a fresh
Python object.  A populated object is built by consecutive `retval[key] =`
assignments, so duplicate keys overwrite in insertion order (`dictSet`).
The final `raise ValueError` branch of line 169 is unreachable here because
`Envelope` is exactly the closed schema. -/
def unpack_value_from_set_value_schema : Envelope → Nat → PyJson × Nat
  | .string_value s, c => (.str s, c)
  | .numerical_value n, c => (.num n, c)
  | .boolean_value b, c => (.bool b, c)
  | .null_value, c => (.null, c)
  | .empty_object, c => (.obj c [], c + 1)
  | .empty_array, c => (.arr c [], c + 1)
  | .populated_array items, c =>
      let (items', c') := unpackList items c
      (.arr c' items', c' + 1)
  | .populated_object pairs, c =>
      let (entries', c') := unpackPairs pairs [] c
      (.obj c' entries', c' + 1)

def unpackList : List Envelope → Nat → List PyJson × Nat
  | [], c => ([], c)
  | e :: es, c =>
      let (v, c') := unpack_value_from_set_value_schema e c
      let (vs, c'') := unpackList es c'
      (v :: vs, c'')

def unpackPairs : List (String × Envelope) → List (Koi × PyJson) → Nat →
    List (Koi × PyJson) × Nat
  | [], acc, c => (acc, c)
  | (k, e) :: rest, acc, c =>
      let (v, c') := unpack_value_from_set_value_schema e c
      unpackPairs rest (dictSet acc (.s k) v) c'
end

/-! ## Modification operations and the applying phase -/

/-- The `data` field of a modification (wire schema lines 521-562): absent
(`null`), an inline tagged envelope, or a copy-source JSON path. -/
inductive DataField where
  | inline_value (env : Envelope)
  | json_path_of_copy_source (path : List Koi)
deriving Repr

/-- One modification operation, as the FORMALIZING schema (strict JSON
schema, all five fields required) delivers it.  `action` is kept as a raw
string so the `Unknown action` branch of line 681 stays representable. -/
structure Modification where
  json_path_of_parent : List Koi
  key_or_index : Koi
  action : String
  new_key_name : String
  data : Option DataField
deriving Repr

/-- The per-operation failures of the applying phase (lines 620-696).  Every
one of them corresponds to an exception that the `except` clause of line 693
catches and reports into the conversation. -/
inductive OpErr where
  | missingAction
  | missingNewKeyName
  | navError (e : NavErr)
  | parentNotContainer
  | typeError
  | indexError
  | intParseError
  | appendOnNonArray
  | insertOnNonArray
  | renameOnArray
  | unknownAction (a : String)
deriving DecidableEq, Repr

/-- `int(key_or_index)`: an integer is returned as is, a string is parsed
as a decimal integer (`ValueError` otherwise). -/
def pyToInt : Koi → Except OpErr Int
  | .i n => .ok n
  | .s str =>
      match str.toInt? with
      | some n => .ok n
      | none => .error .intParseError

/-- Resolution of the operation's `value` (lines 627-638): `None` when no
data is supplied, the decoded envelope for an inline value, or a deep copy
of the value navigated to for a copy source. -/
def resolveValue (objMod : PyJson) (c : Nat) :
    Option DataField → Except OpErr PyJson × Nat
  | none => (.ok .null, c)
  | some (.inline_value env) =>
      let (v, c') := unpack_value_from_set_value_schema env c
      (.ok v, c')
  | some (.json_path_of_copy_source path) =>
      match navigate_to_json_path objMod path with
      | .ok r =>
          let (v, c') := deep_copy_json r.path_target c
          (.ok v, c')
      | .error e => (.error (.navError e), c)

/-- The action dispatch of lines 660-681, applied to the (dict or list)
parent container `navigate_to_json_path` resolved.  Returns the mutated
container (same object, hence same identifier).  Only called on containers;
the catch-all keeps it total. -/
def mutateParent (action : String) (koi : Koi) (newKey : String)
    (target value : PyJson) : Except OpErr PyJson :=
  if action = "assign" then
    match target, koi with
    | .arr aid xs, .i n =>
        match normIdx n xs.length with
        | some j => .ok (.arr aid (xs.set j value))
        | none => .error .indexError
    | .arr _ _, .s _ => .error .typeError
    | .obj oid es, k => .ok (.obj oid (dictSet es k value))
    | _, _ => .error .parentNotContainer
  else if action = "delete" then
    match target with
    | .arr aid xs =>
        match pyToInt koi with
        | .ok n =>
            match normIdx n xs.length with
            | some j => .ok (.arr aid (xs.eraseIdx j))
            | none => .error .indexError
        | .error e => .error e
    | .obj oid es => .ok (.obj oid (dictPop es koi))
    | _ => .error .parentNotContainer
  else if action = "append" then
    match target with
    | .arr aid xs => .ok (.arr aid (xs ++ [value]))
    | _ => .error .appendOnNonArray
  else if action = "insert" then
    match target with
    | .arr aid xs =>
        match pyToInt koi with
        | .ok n => .ok (.arr aid (listInsAt xs n value))
        | .error e => .error e
    | _ => .error .insertOnNonArray
  else if action = "rename" then
    match target with
    | .arr _ _ => .error .renameOnArray
    | .obj oid es =>
        .ok (.obj oid
          (dictPop
            (dictSet es (.s newKey) ((dictGet? es koi).getD .null))
            koi))
    | _ => .error .parentNotContainer
  else .error (.unknownAction action)

/-- One iteration of the applying loop body (lines 620-692) on the scratch
copy `objMod`: resolve the value, check the required fields, navigate to the
parent, require it to be a dict or list, dispatch the action and write the
mutated parent back.  On success the payload is the new scratch tree and the
identifier of the Python object that was mutated in place; the second
component is the allocation counter either way.  The checks for a missing
`json_path_of_parent` / `action` (lines 640-643) cannot fire here because
the strict wire schema always supplies the fields; the empty-string cases
of Python falsiness are kept. -/
def applyAtParent (objMod : PyJson) (m : Modification) (value : PyJson)
    (r : NavOut) : Except OpErr (PyJson × Nat) :=
  if isContainer r.path_target then
    match mutateParent m.action m.key_or_index m.new_key_name
        r.path_target value with
    | .ok parent' =>
        .ok ((setAtPath objMod m.json_path_of_parent parent').getD objMod,
          oidOf r.path_target)
    | .error e => .error e
  else .error .parentNotContainer

def applyOneOp (objMod : PyJson) (c : Nat) (m : Modification) :
    Except OpErr (PyJson × Nat) × Nat :=
  (match (resolveValue objMod c m.data).1 with
   | .error e => .error e
   | .ok value =>
     if m.action = "" then .error .missingAction
     else if m.action = "rename" ∧ m.new_key_name = "" then
       .error .missingNewKeyName
     else
       match navigate_to_json_path objMod m.json_path_of_parent with
       | .error e => .error (.navError e)
       | .ok r => applyAtParent objMod m value r,
   (resolveValue objMod c m.data).2)

/-- The per-operation system observation added to the conversation: the
success message of lines 683-692 or the failure message of lines 694-696. -/
inductive Observation where
  | applied (m : Modification)
  | failedOp (m : Modification) (e : OpErr)
deriving Repr

/-- The modification the observation reports on. -/
def Observation.mod : Observation → Modification
  | .applied m => m
  | .failedOp m _ => m

/-- The applying loop (lines 619-696) over a whole batch: each operation is
attempted in order; a failure is caught, reported as an observation, and
leaves the scratch copy as it was; the remaining operations still run.
Returns the final scratch copy, the counter, the observations in order, and
the log of identifiers of containers mutated in place. -/
def applyBatch (objMod : PyJson) (c : Nat) :
    List Modification → PyJson × Nat × List Observation × List Nat
  | [] => (objMod, c, [], [])
  | m :: rest =>
      match applyOneOp objMod c m with
      | (.ok (obj', pid), c') =>
          let (o, cc, obs, log) := applyBatch obj' c' rest
          (o, cc, .applied m :: obs, pid :: log)
      | (.error e, c') =>
          let (o, cc, obs, log) := applyBatch objMod c' rest
          (o, cc, .failedOp m e :: obs, log)

/-! ## The surgery session state machine (`json_surgery`) -/

/-- The result of the caller's `on_validate_before_return` callback
(`ValidationResult` TypedDict, lines 119-121): an optional corrected
document and an optional error list.  The callback returning Python `None`
is modelled by the surrounding `Option`; the empty dict `{}` (falsy) by
both fields absent. -/
structure ValidationResult where
  obj_corrected : Option PyJson
  errors : Option (List String)

/-- Python truthiness of the result dict: `if validation_result:` — false
exactly when no key is present. -/
def vrTruthy (vr : ValidationResult) : Bool :=
  vr.obj_corrected.isSome || vr.errors.isSome

/-- `JSONSurgeryOptions` (lines 124-130) restricted to the fields that
influence the document and control flow; `schema_description` and
`skipped_keys` only shape prompt text.  `give_up_after_seconds = some 0`
models an explicit 0 (falsy, like an absent key). -/
structure JSONSurgeryOptions where
  on_validate_before_return : Option (PyJson → Option ValidationResult)
  on_work_in_progress : Option (PyJson → Option PyJson)
  give_up_after_seconds : Option Nat
  give_up_after_iterations : Option Nat

/-- The options dict with no entries (`options or {}`). -/
def noOptions : JSONSurgeryOptions := ⟨none, none, none, none⟩

/-- One entry of `operations_done_so_far`, carrying exactly the data the
Python code interpolates into the corresponding history string:
lines 780-781 (`DONE: ...`), 788-791 (`FAILED: ... Reason for failure:
...`), 599-611 (the validation-failure-on-attempted-exit text with the
error list). -/
inductive HistoryEntry where
  | doneBatch (description_of_changes_applied : String)
  | failedBatch (description_of_changes_intended reason_to_revert : String)
  | failedExitValidation (errors : List String)
deriving Repr

/-- `operation_next`: nothing yet (initial value of line 380), the fixed
sentence of lines 613-615, or the collaborator's `next_step` reply of line
796. -/
inductive NextNote where
  | nothingYet
  | fixValidationErrors
  | fromReply (nextStep : String)
deriving Repr

/-- The loop state of `json_surgery`: the current snapshot (`obj`), the
allocation counter of the identifier instrumentation, `num_iterations`,
the operation history, the last/next operation notes and the last-success
flag (lines 378-382), plus the instrumentation log of every container
identifier the engine has mutated in place. -/
structure SessionState where
  obj : PyJson
  counter : Nat
  num_iterations : Nat
  operations_done_so_far : List HistoryEntry
  operation_last : Option HistoryEntry
  operation_next : NextNote
  operation_last_was_successful : Bool
  mutatedIds : List Nat

/-- What the collaborator and the clock contribute to one loop iteration:
the measured elapsed seconds (line 395), the formalized modification batch
(line 583), and the verification reply fields (lines 780-796). -/
structure IterEvent where
  seconds_elapsed : Nat
  modifications : List Modification
  description_of_changes_intended : String
  description_of_changes_applied : String
  should_we_keep_these_changes : Bool
  reason_to_revert : String
  next_step : String

/-- Which budget a fatal `JSONSurgeryError` reports. -/
inductive BudgetKind where
  | seconds
  | iterations
deriving DecidableEq, Repr

/-- Outcome of one loop iteration. -/
inductive StepResult where
  | continueLoop (st : SessionState)
  | finished (ret : PyJson) (st : SessionState)
  | budgetExceeded (kind : BudgetKind) (errObj : PyJson) (st : SessionState)

/-- The work-in-progress housekeeping of lines 389-393: when a callback is
configured it receives a deep copy of the snapshot and may supply a
replacement, which is deep-copied into the session. -/
def wipProcess (opts : JSONSurgeryOptions) (obj : PyJson) (c : Nat) :
    PyJson × Nat :=
  match opts.on_work_in_progress with
  | none => (obj, c)
  | some f =>
      let (copy, c1) := deep_copy_json obj c
      match f copy with
      | none => (obj, c1)
      | some replacement => deep_copy_json replacement c1

/-- `if give_up_after_seconds and seconds_elapsed > give_up_after_seconds`
(line 397): an absent key and an explicit 0 are both falsy. -/
def secondsBudgetHit (opts : JSONSurgeryOptions) (secondsElapsed : Nat) : Bool :=
  match opts.give_up_after_seconds with
  | some s => s ≠ 0 && secondsElapsed > s
  | none => false

/-- `if give_up_after_iterations and num_iterations > give_up_after_iterations`
(line 406), where `numIterations` is the already-incremented counter. -/
def iterationsBudgetHit (opts : JSONSurgeryOptions) (numIterations : Nat) : Bool :=
  match opts.give_up_after_iterations with
  | some k => k ≠ 0 && numIterations > k
  | none => false

/-- The two budget checks in source order (seconds first, lines 395-411). -/
def budgetCheck (opts : JSONSurgeryOptions) (numIterations secondsElapsed : Nat) :
    Option BudgetKind :=
  if secondsBudgetHit opts secondsElapsed then some .seconds
  else if iterationsBudgetHit opts numIterations then some .iterations
  else none

/-- The exit-gate validation of lines 585-593: the callback (if any)
receives a deep copy of the snapshot; a truthy result may replace the
snapshot with `obj_corrected` (taken as is, without copying — line 591) and
may report errors (an empty error list is falsy and reports nothing).
Returns the possibly corrected snapshot, the counter and the errors. -/
def runExitValidation (opts : JSONSurgeryOptions) (obj : PyJson) (c : Nat) :
    PyJson × Nat × List String :=
  match opts.on_validate_before_return with
  | none => (obj, c, [])
  | some f =>
      match f (deep_copy_json obj c).1 with
      | none => (obj, (deep_copy_json obj c).2, [])
      | some vr =>
          if vrTruthy vr then
            (vr.obj_corrected.getD obj,
             (deep_copy_json obj c).2,
             match vr.errors with
             | some es => if es.isEmpty then [] else es
             | none => [])
          else (obj, (deep_copy_json obj c).2, [])

/-- The main phase of one iteration of the `while True` loop of
`json_surgery` (lines 583-796), entered with the post-housekeeping snapshot
`obj1`, counter `c1` and iteration number `n`.  An empty modification batch
goes through the exit gate: no validation errors returns the (possibly
corrected) snapshot, otherwise a failed-exit entry is appended to the
history and the loop continues.  A non-empty batch is applied to a
deep-copied scratch tree; the verification verdict decides whether the
scratch tree replaces the snapshot (lines 780-796). -/
def mainPhase (opts : JSONSurgeryOptions) (st : SessionState) (ev : IterEvent)
    (obj1 : PyJson) (c1 : Nat) (n : Nat) : StepResult :=
    if ev.modifications.isEmpty then
      let (obj2, c2, errs) := runExitValidation opts obj1 c1
      if errs.isEmpty then
        .finished obj2 { st with obj := obj2, counter := c2, num_iterations := n }
      else
        let entry := HistoryEntry.failedExitValidation errs
        .continueLoop
          { obj := obj2, counter := c2, num_iterations := n,
            operations_done_so_far := st.operations_done_so_far ++ [entry],
            operation_last := some entry,
            operation_next := .fixValidationErrors,
            operation_last_was_successful := false,
            mutatedIds := st.mutatedIds }
    else
      let (scratch, c2) := deep_copy_json obj1 c1
      let (objMod, c3, _obs, log) := applyBatch scratch c2 ev.modifications
      if ev.should_we_keep_these_changes then
        let entry := HistoryEntry.doneBatch ev.description_of_changes_applied
        .continueLoop
          { obj := objMod, counter := c3, num_iterations := n,
            operations_done_so_far := st.operations_done_so_far ++ [entry],
            operation_last := some entry,
            operation_next := .fromReply ev.next_step,
            operation_last_was_successful := true,
            mutatedIds := st.mutatedIds ++ log }
      else
        let entry := HistoryEntry.failedBatch ev.description_of_changes_intended
          ev.reason_to_revert
        .continueLoop
          { obj := obj1, counter := c3, num_iterations := n,
            operations_done_so_far := st.operations_done_so_far ++ [entry],
            operation_last := some entry,
            operation_next := .fromReply ev.next_step,
            operation_last_was_successful := false,
            mutatedIds := st.mutatedIds ++ log }

/-- One iteration of the loop, assembled from the housekeeping of lines
389-411 and the main phase: `num_iterations` is incremented, the
work-in-progress callback and the budget checks run on every iteration
after the first (a budget hit raises `JSONSurgeryError`, whose constructor
deep-copies the snapshot — line 138), then the iteration proceeds to the
exit gate or the batch. -/
def stepIteration (opts : JSONSurgeryOptions) (st : SessionState)
    (ev : IterEvent) : StepResult :=
  let n := st.num_iterations + 1
  let (obj1, c1) :=
    if n > 1 then wipProcess opts st.obj st.counter else (st.obj, st.counter)
  match (if n > 1 then budgetCheck opts n ev.seconds_elapsed else none) with
  | some kind =>
      let (errObj, c2) := deep_copy_json obj1 c1
      .budgetExceeded kind errObj
        { st with obj := obj1, counter := c2, num_iterations := n }
  | none => mainPhase opts st ev obj1 c1 n

/-- Outcome of running the session against a finite collaborator trace.
`suspended` is the model artifact for "the trace ended while the Python
loop would keep running". -/
inductive RunOutcome where
  | finished (ret : PyJson) (st : SessionState)
  | budgetExceeded (kind : BudgetKind) (errObj : PyJson) (st : SessionState)
  | suspended (st : SessionState)

/-- Iterating the loop over a collaborator trace. -/
def runSession (opts : JSONSurgeryOptions) (st : SessionState) :
    List IterEvent → RunOutcome
  | [] => .suspended st
  | ev :: rest =>
      match stepIteration opts st ev with
      | .continueLoop st' => runSession opts st' rest
      | .finished r st' => .finished r st'
      | .budgetExceeded k e st' => .budgetExceeded k e st'

/-- The fresh session state of lines 378-382 with the given starting
snapshot and counter. -/
def initState (obj0 : PyJson) (c : Nat) : SessionState :=
  ⟨obj0, c, 0, [], none, .nothingYet, true, []⟩

/-- Outcome of a whole `json_surgery` call. -/
inductive SurgeryOutcome where
  | noneInputError
  | run (o : RunOutcome)

/-- `json_surgery(openai_client, obj, modification_instructions, options)`
(lines 172-796) as a function of the input document, a starting allocation
counter (any number larger than every identifier of the caller's object),
and the collaborator trace.  A `None` input raises `ValueError` (line 184);
otherwise the input is deep-copied (line 186) and the loop runs. -/
def json_surgery (opts : JSONSurgeryOptions) (input : PyJson) (c0 : Nat)
    (trace : List IterEvent) : SurgeryOutcome :=
  match input with
  | .null => .noneInputError
  | _ =>
      let (obj0, c1) := deep_copy_json input c0
      .run (runSession opts (initState obj0 c1) trace)

/-- The session state an outcome ends in. -/
def SurgeryOutcome.state : SurgeryOutcome → Option SessionState
  | .noneInputError => none
  | .run (.finished _ st) => some st
  | .run (.budgetExceeded _ _ st) => some st
  | .run (.suspended st) => some st

/-- Every container identifier the engine mutated in place during the call. -/
def SurgeryOutcome.mutated : SurgeryOutcome → List Nat
  | o => (o.state.map SessionState.mutatedIds).getD []

/-- The document returned on successful completion, if any. -/
def SurgeryOutcome.ret : SurgeryOutcome → Option PyJson
  | .run (.finished r _) => some r
  | _ => none

/-- The snapshot attached to a fatal budget error, if any. -/
def SurgeryOutcome.budgetObj : SurgeryOutcome → Option PyJson
  | .run (.budgetExceeded _ e _) => some e
  | _ => none

/-- The budget kind of a fatal budget error, if any. -/
def SurgeryOutcome.budgetKind : SurgeryOutcome → Option BudgetKind
  | .run (.budgetExceeded k _ _) => some k
  | _ => none

/-! ## Identifier-footprint lemmas for the container primitives -/

theorem idsOfList_append (a b : List PyJson) :
    idsOfList (a ++ b) = idsOfList a ++ idsOfList b := by
  induction a with
  | nil => simp [idsOfList]
  | cons x xs ih => simp [idsOfList, ih]

theorem idsOf_mem_list {x : PyJson} {xs : List PyJson} (hx : x ∈ xs) :
    ∀ i ∈ idsOf x, i ∈ idsOfList xs := by
  induction xs with
  | nil => cases hx
  | cons y ys ih =>
      intro i hi
      rcases List.mem_cons.mp hx with rfl | hmem
      · simp only [idsOfList, List.mem_append]
        exact Or.inl hi
      · simp only [idsOfList, List.mem_append]
        exact Or.inr (ih hmem i hi)

theorem dictGet?_ids {es : List (Koi × PyJson)} {k : Koi} {v : PyJson}
    (h : dictGet? es k = some v) : ∀ i ∈ idsOf v, i ∈ idsOfEntries es := by
  induction es with
  | nil => simp [dictGet?] at h
  | cons kv rest ih =>
      obtain ⟨k', v'⟩ := kv
      simp only [dictGet?] at h
      by_cases hk : k' = k
      · simp only [hk, if_pos rfl] at h
        cases h
        intro i hi
        simp only [idsOfEntries, List.mem_append]
        exact Or.inl hi
      · rw [if_neg hk] at h
        intro i hi
        simp only [idsOfEntries, List.mem_append]
        exact Or.inr (ih h i hi)

theorem dictSet_ids {es : List (Koi × PyJson)} {k : Koi} {v : PyJson} :
    ∀ i ∈ idsOfEntries (dictSet es k v), i ∈ idsOfEntries es ∨ i ∈ idsOf v := by
  induction es with
  | nil => intro i hi; simp only [dictSet, idsOfEntries, List.append_nil] at hi; exact Or.inr hi
  | cons kv rest ih =>
      obtain ⟨k', v'⟩ := kv
      intro i hi
      simp only [dictSet] at hi
      by_cases hk : k' = k
      · rw [if_pos hk] at hi
        simp only [idsOfEntries, List.mem_append] at hi
        rcases hi with hi | hi
        · exact Or.inr hi
        · exact Or.inl (by simp only [idsOfEntries, List.mem_append]; exact Or.inr hi)
      · rw [if_neg hk] at hi
        simp only [idsOfEntries, List.mem_append] at hi
        rcases hi with hi | hi
        · exact Or.inl (by simp only [idsOfEntries, List.mem_append]; exact Or.inl hi)
        · rcases ih i hi with h | h
          · exact Or.inl (by simp only [idsOfEntries, List.mem_append]; exact Or.inr h)
          · exact Or.inr h

theorem dictPop_ids {es : List (Koi × PyJson)} {k : Koi} :
    ∀ i ∈ idsOfEntries (dictPop es k), i ∈ idsOfEntries es := by
  induction es with
  | nil => intro i hi; simpa [dictPop] using hi
  | cons kv rest ih =>
      obtain ⟨k', v'⟩ := kv
      intro i hi
      simp only [dictPop] at hi
      by_cases hk : k' = k
      · rw [if_pos hk] at hi
        simp only [idsOfEntries, List.mem_append]
        exact Or.inr hi
      · rw [if_neg hk] at hi
        simp only [idsOfEntries, List.mem_append] at hi ⊢
        rcases hi with hi | hi
        · exact Or.inl hi
        · exact Or.inr (ih i hi)

theorem listSet_ids (xs : List PyJson) (j : Nat) (v : PyJson) :
    ∀ i ∈ idsOfList (xs.set j v), i ∈ idsOfList xs ∨ i ∈ idsOf v := by
  induction xs generalizing j with
  | nil => intro i hi; simp [idsOfList] at hi
  | cons x rest ih =>
      intro i hi
      match j with
      | 0 =>
          simp only [List.set, idsOfList, List.mem_append] at hi
          rcases hi with hi | hi
          · exact Or.inr hi
          · exact Or.inl (by simp only [idsOfList, List.mem_append]; exact Or.inr hi)
      | j' + 1 =>
          simp only [List.set, idsOfList, List.mem_append] at hi
          rcases hi with hi | hi
          · exact Or.inl (by simp only [idsOfList, List.mem_append]; exact Or.inl hi)
          · rcases ih j' i hi with h | h
            · exact Or.inl (by simp only [idsOfList, List.mem_append]; exact Or.inr h)
            · exact Or.inr h

theorem eraseIdx_ids (xs : List PyJson) (j : Nat) :
    ∀ i ∈ idsOfList (xs.eraseIdx j), i ∈ idsOfList xs := by
  induction xs generalizing j with
  | nil => intro i hi; simp [List.eraseIdx] at hi; simp [idsOfList] at hi
  | cons x rest ih =>
      intro i hi
      match j with
      | 0 =>
          simp only [List.eraseIdx] at hi
          simp only [idsOfList, List.mem_append]
          exact Or.inr hi
      | j' + 1 =>
          simp only [List.eraseIdx, idsOfList, List.mem_append] at hi ⊢
          rcases hi with hi | hi
          · exact Or.inl hi
          · exact Or.inr (ih j' i hi)

theorem listInsAt_ids {xs : List PyJson} {n : Int} {v : PyJson} :
    ∀ i ∈ idsOfList (listInsAt xs n v), i ∈ idsOfList xs ∨ i ∈ idsOf v := by
  intro i hi
  unfold listInsAt at hi
  set j := if n < 0 then ((xs.length : Int) + n).toNat else min n.toNat xs.length with hj
  rw [idsOfList_append] at hi
  simp only [List.mem_append] at hi
  rcases hi with hi | hi
  · left
    have : i ∈ idsOfList (xs.take j ++ xs.drop j) := by
      rw [idsOfList_append]; exact List.mem_append.mpr (Or.inl hi)
    simpa [List.take_append_drop] using this
  · simp only [idsOfList, List.mem_append] at hi
    rcases hi with hi | hi
    · exact Or.inr hi
    · left
      have : i ∈ idsOfList (xs.take j ++ xs.drop j) := by
        rw [idsOfList_append]; exact List.mem_append.mpr (Or.inr hi)
      simpa [List.take_append_drop] using this

theorem getElem?_ids {xs : List PyJson} {j : Nat} {v : PyJson}
    (h : xs[j]? = some v) : ∀ i ∈ idsOf v, i ∈ idsOfList xs := by
  have hv : v ∈ xs := List.getElem?_mem h
  exact idsOf_mem_list hv

theorem oidOf_mem {t : PyJson} (h : isContainer t = true) : oidOf t ∈ idsOf t := by
  cases t <;> simp_all [isContainer, oidOf, idsOf]

/-! ## Freshness of deep copies and decoded envelopes -/

mutual
theorem deep_copy_json_ids (v : PyJson) (c : Nat) :
    c ≤ (deep_copy_json v c).2 ∧ ∀ i ∈ idsOf (deep_copy_json v c).1, c ≤ i := by
  match v with
  | .null | .bool _ | .num _ | .str _ => simp [deep_copy_json, idsOf]
  | .arr oid items =>
      have h := deepCopyList_ids items c
      simp only [deep_copy_json, idsOf]
      constructor
      · omega
      · intro i hi
        simp only [List.mem_cons] at hi
        rcases hi with rfl | hi
        · exact h.1
        · exact h.2 i hi
  | .obj oid entries =>
      have h := deepCopyEntries_ids entries c
      simp only [deep_copy_json, idsOf]
      constructor
      · omega
      · intro i hi
        simp only [List.mem_cons] at hi
        rcases hi with rfl | hi
        · exact h.1
        · exact h.2 i hi

theorem deepCopyList_ids (xs : List PyJson) (c : Nat) :
    c ≤ (deepCopyList xs c).2 ∧ ∀ i ∈ idsOfList (deepCopyList xs c).1, c ≤ i := by
  match xs with
  | [] => simp [deepCopyList, idsOfList]
  | x :: rest =>
      have h1 := deep_copy_json_ids x c
      have h2 := deepCopyList_ids rest (deep_copy_json x c).2
      simp only [deepCopyList, idsOfList]
      constructor
      · omega
      · intro i hi
        simp only [List.mem_append] at hi
        rcases hi with hi | hi
        · exact h1.2 i hi
        · exact le_trans h1.1 (h2.2 i hi)

theorem deepCopyEntries_ids (xs : List (Koi × PyJson)) (c : Nat) :
    c ≤ (deepCopyEntries xs c).2 ∧
      ∀ i ∈ idsOfEntries (deepCopyEntries xs c).1, c ≤ i := by
  match xs with
  | [] => simp [deepCopyEntries, idsOfEntries]
  | (k, v) :: rest =>
      have h1 := deep_copy_json_ids v c
      have h2 := deepCopyEntries_ids rest (deep_copy_json v c).2
      simp only [deepCopyEntries, idsOfEntries]
      constructor
      · omega
      · intro i hi
        simp only [List.mem_append] at hi
        rcases hi with hi | hi
        · exact h1.2 i hi
        · exact le_trans h1.1 (h2.2 i hi)
end

mutual
theorem structEq_deep_copy (v : PyJson) (c : Nat) (h : allStrKeys v = true) :
    structEq (deep_copy_json v c).1 v = true := by
  match v with
  | .null => simp [deep_copy_json, structEq]
  | .bool b => simp [deep_copy_json, structEq]
  | .num n => simp [deep_copy_json, structEq]
  | .str s => simp [deep_copy_json, structEq]
  | .arr oid items =>
      simp only [allStrKeys] at h
      simpa only [deep_copy_json, structEq] using structEqList_deepCopyList items c h
  | .obj oid entries =>
      simp only [allStrKeys] at h
      simpa only [deep_copy_json, structEq] using
        structEqEntries_deepCopyEntries entries c h

theorem structEqList_deepCopyList (xs : List PyJson) (c : Nat)
    (h : allStrKeysList xs = true) :
    structEqList (deepCopyList xs c).1 xs = true := by
  match xs with
  | [] => simp [deepCopyList, structEqList]
  | x :: rest =>
      simp only [allStrKeysList, Bool.and_eq_true] at h
      have h1 := structEq_deep_copy x c h.1
      have h2 := structEqList_deepCopyList rest (deep_copy_json x c).2 h.2
      simp only [deepCopyList, structEqList, Bool.and_eq_true]
      exact ⟨h1, h2⟩

theorem structEqEntries_deepCopyEntries (xs : List (Koi × PyJson)) (c : Nat)
    (h : allStrKeysEntries xs = true) :
    structEqEntries (deepCopyEntries xs c).1 xs = true := by
  match xs with
  | [] => simp [deepCopyEntries, structEqEntries]
  | (k, v) :: rest =>
      simp only [allStrKeysEntries, Bool.and_eq_true] at h
      obtain ⟨⟨hk, hv⟩, hrest⟩ := h
      have h1 := structEq_deep_copy v c hv
      have h2 := structEqEntries_deepCopyEntries rest (deep_copy_json v c).2 hrest
      match k with
      | .s key =>
          simp only [deepCopyEntries, structEqEntries, dumpKey, Bool.and_eq_true,
            decide_eq_true_eq]
          exact ⟨⟨trivial, h1⟩, h2⟩
      | .i n => simp at hk
end

mutual
theorem unpack_ids (e : Envelope) (c : Nat) :
    c ≤ (unpack_value_from_set_value_schema e c).2 ∧
      ∀ i ∈ idsOf (unpack_value_from_set_value_schema e c).1, c ≤ i := by
  match e with
  | .string_value s => simp [unpack_value_from_set_value_schema, idsOf]
  | .numerical_value n => simp [unpack_value_from_set_value_schema, idsOf]
  | .boolean_value b => simp [unpack_value_from_set_value_schema, idsOf]
  | .null_value => simp [unpack_value_from_set_value_schema, idsOf]
  | .empty_object => simp [unpack_value_from_set_value_schema, idsOf, idsOfEntries]
  | .empty_array => simp [unpack_value_from_set_value_schema, idsOf, idsOfList]
  | .populated_array items =>
      have h := unpackList_ids items c
      simp only [unpack_value_from_set_value_schema, idsOf]
      constructor
      · omega
      · intro i hi
        simp only [List.mem_cons] at hi
        rcases hi with rfl | hi
        · exact h.1
        · exact h.2 i hi
  | .populated_object pairs =>
      have h := unpackPairs_ids pairs [] c
      simp only [unpack_value_from_set_value_schema, idsOf]
      constructor
      · omega
      · intro i hi
        simp only [List.mem_cons] at hi
        rcases hi with rfl | hi
        · exact h.1
        · rcases h.2 i hi with hacc | hge
          · simp [idsOfEntries] at hacc
          · exact hge

theorem unpackList_ids (es : List Envelope) (c : Nat) :
    c ≤ (unpackList es c).2 ∧ ∀ i ∈ idsOfList (unpackList es c).1, c ≤ i := by
  match es with
  | [] => simp [unpackList, idsOfList]
  | e :: rest =>
      have h1 := unpack_ids e c
      have h2 := unpackList_ids rest (unpack_value_from_set_value_schema e c).2
      simp only [unpackList, idsOfList]
      constructor
      · omega
      · intro i hi
        simp only [List.mem_append] at hi
        rcases hi with hi | hi
        · exact h1.2 i hi
        · exact le_trans h1.1 (h2.2 i hi)

theorem unpackPairs_ids (ps : List (String × Envelope)) (acc : List (Koi × PyJson))
    (c : Nat) :
    c ≤ (unpackPairs ps acc c).2 ∧
      ∀ i ∈ idsOfEntries (unpackPairs ps acc c).1,
        i ∈ idsOfEntries acc ∨ c ≤ i := by
  match ps with
  | [] =>
      simp only [unpackPairs]
      exact ⟨le_refl c, fun i hi => Or.inl hi⟩
  | (k, e) :: rest =>
      have h1 := unpack_ids e c
      have h2 := unpackPairs_ids rest
        (dictSet acc (.s k) (unpack_value_from_set_value_schema e c).1)
        (unpack_value_from_set_value_schema e c).2
      simp only [unpackPairs]
      constructor
      · omega
      · intro i hi
        rcases h2.2 i hi with hacc | hge
        · rcases dictSet_ids i hacc with h | h
          · exact Or.inl h
          · exact Or.inr (h1.2 i h)
        · exact Or.inr (le_trans h1.1 hge)
end

/-! ## Navigation lemmas -/

theorem normIdx_pos {n : Int} {len : Nat} {j : Nat} (h : normIdx n len = some j) :
    0 < len := by
  unfold normIdx at h
  split_ifs at h with h1 h2
  · omega
  · omega

theorem pyLookup_ids {t : PyJson} {k : Koi} {v : PyJson}
    (h : pyLookup t k = .ok v) : ∀ i ∈ idsOf v, i ∈ idsOf t := by
  match t, k with
  | .obj oid es, k =>
      simp only [pyLookup] at h
      cases hg : dictGet? es k with
      | none => simp only [hg] at h; exact Except.noConfusion h
      | some w =>
          simp only [hg] at h
          cases h
          intro i hi
          simp only [idsOf, List.mem_cons]
          exact Or.inr (dictGet?_ids hg i hi)
  | .arr oid xs, .i n =>
      simp only [pyLookup] at h
      cases hn : normIdx n xs.length with
      | none => simp only [hn] at h; exact Except.noConfusion h
      | some j =>
          simp only [hn] at h
          cases hx : xs[j]? with
          | none => simp only [hx] at h; exact Except.noConfusion h
          | some w =>
              simp only [hx] at h
              cases h
              intro i hi
              simp only [idsOf, List.mem_cons]
              exact Or.inr (getElem?_ids hx i hi)
  | .arr _ _, .s _ => cases h
  | .str s, .i n =>
      simp only [pyLookup] at h
      cases hn : normIdx n s.length with
      | none => simp only [hn] at h; exact Except.noConfusion h
      | some j =>
          simp only [hn] at h
          cases hx : s.toList[j]? with
          | none => simp only [hx] at h; exact Except.noConfusion h
          | some ch =>
              simp only [hx] at h
              cases h
              intro i hi
              simp [idsOf] at hi
  | .str _, .s _ => cases h
  | .null, _ => cases h
  | .bool _, _ => cases h
  | .num _, _ => cases h

theorem pyLookup_str {s : String} {k : Koi} {v : PyJson}
    (h : pyLookup (.str s) k = .ok v) : ∃ s', v = .str s' := by
  match k with
  | .i n =>
      simp only [pyLookup] at h
      cases hn : normIdx n s.length with
      | none => simp only [hn] at h; exact Except.noConfusion h
      | some j =>
          simp only [hn] at h
          cases hx : s.toList[j]? with
          | none => simp only [hx] at h; exact Except.noConfusion h
          | some ch =>
              simp only [hx] at h
              cases h
              exact ⟨_, rfl⟩
  | .s _ => cases h

theorem truthy_of_pyLookup_ok {t : PyJson} {k : Koi} {v : PyJson}
    (h : pyLookup t k = .ok v) : truthy t = true := by
  match t, k with
  | .obj oid es, k =>
      simp only [pyLookup] at h
      cases hg : dictGet? es k with
      | none => simp only [hg] at h; exact Except.noConfusion h
      | some w =>
          cases es with
          | nil => simp [dictGet?] at hg
          | cons a b => simp [truthy]
  | .arr oid xs, .i n =>
      simp only [pyLookup] at h
      cases hn : normIdx n xs.length with
      | none => simp only [hn] at h; exact Except.noConfusion h
      | some j =>
          have hpos := normIdx_pos hn
          cases xs with
          | nil => simp at hpos
          | cons a b => simp [truthy]
  | .arr _ _, .s _ => cases h
  | .str s, .i n =>
      simp only [pyLookup] at h
      cases hn : normIdx n s.length with
      | none => simp only [hn] at h; exact Except.noConfusion h
      | some j =>
          have hpos := normIdx_pos hn
          simp only [truthy, decide_eq_true_eq]
          intro hs
          rw [hs] at hpos
          simp at hpos
  | .str _, .s _ => cases h
  | .null, _ => cases h
  | .bool b, _ => cases h
  | .num _, _ => cases h

theorem navigateAux_ids {path : List Koi} :
    ∀ {full : List Koi} {p : Option PyJson} {k : Option Koi} {t : PyJson}
      {r : NavOut}, navigateAux full p k t path = .ok r →
      ∀ i ∈ idsOf r.path_target, i ∈ idsOf t := by
  induction path with
  | nil =>
      intro full p k t r h i hi
      simp only [navigateAux] at h
      cases h
      exact hi
  | cons x rest ih =>
      intro full p k t r h i hi
      simp only [navigateAux] at h
      by_cases ht : truthy t
      · rw [if_pos ht] at h
        cases hl : pyLookup t x with
        | error e => simp only [hl] at h; exact Except.noConfusion h
        | ok next =>
            simp only [hl] at h
            exact pyLookup_ids hl i (ih h i hi)
      · rw [if_neg ht] at h; cases h

theorem navigate_to_json_path_ids {obj : PyJson} {path : List Koi} {r : NavOut}
    (h : navigate_to_json_path obj path = .ok r) :
    ∀ i ∈ idsOf r.path_target, i ∈ idsOf obj :=
  navigateAux_ids h

theorem navigateAux_str {path : List Koi} :
    ∀ {full : List Koi} {p : Option PyJson} {k : Option Koi} {s : String}
      {r : NavOut}, navigateAux full p k (.str s) path = .ok r →
      ∃ s', r.path_target = .str s' := by
  induction path with
  | nil =>
      intro full p k s r h
      simp only [navigateAux] at h
      cases h
      exact ⟨s, rfl⟩
  | cons x rest ih =>
      intro full p k s r h
      simp only [navigateAux] at h
      by_cases ht : truthy (PyJson.str s)
      · rw [if_pos ht] at h
        cases hl : pyLookup (.str s) x with
        | error e => simp only [hl] at h; exact Except.noConfusion h
        | ok next =>
            simp only [hl] at h
            obtain ⟨s', rfl⟩ := pyLookup_str hl
            exact ih h
      · rw [if_neg ht] at h; cases h

/-! ## Write-back lemmas -/

theorem setAtPath_ids {path : List Koi} :
    ∀ {root nc res : PyJson}, setAtPath root path nc = some res →
      ∀ i ∈ idsOf res, i ∈ idsOf root ∨ i ∈ idsOf nc := by
  induction path with
  | nil =>
      intro root nc res h i hi
      simp only [setAtPath] at h
      cases h
      exact Or.inr hi
  | cons x rest ih =>
      intro root nc res h i hi
      match root, x with
      | .arr aid xs, .i n =>
          simp only [setAtPath] at h
          cases hn : normIdx n xs.length with
          | none => simp only [hn] at h; exact Option.noConfusion h
          | some j =>
              simp only [hn] at h
              cases hx : xs[j]? with
              | none => simp only [hx] at h; exact Option.noConfusion h
              | some child =>
                  simp only [hx] at h
                  cases hs : setAtPath child rest nc with
                  | none => simp only [hs] at h; exact Option.noConfusion h
                  | some c' =>
                      simp only [hs, Option.map_some] at h
                      cases h
                      simp only [idsOf, List.mem_cons] at hi
                      rcases hi with rfl | hi
                      · left
                        simp [idsOf]
                      · rcases listSet_ids xs j c' i hi with hm | hm
                        · left
                          simp only [idsOf, List.mem_cons]
                          exact Or.inr hm
                        · rcases ih hs i hm with hm' | hm'
                          · left
                            simp only [idsOf, List.mem_cons]
                            exact Or.inr (getElem?_ids hx i hm')
                          · exact Or.inr hm'
      | .arr _ _, .s _ => simp only [setAtPath] at h; exact Option.noConfusion h
      | .obj oid es, k =>
          simp only [setAtPath] at h
          cases hg : dictGet? es k with
          | none => simp only [hg] at h; exact Option.noConfusion h
          | some child =>
              simp only [hg] at h
              cases hs : setAtPath child rest nc with
              | none => simp only [hs] at h; exact Option.noConfusion h
              | some c' =>
                  simp only [hs, Option.map_some] at h
                  cases h
                  simp only [idsOf, List.mem_cons] at hi
                  rcases hi with rfl | hi
                  · left
                    simp [idsOf]
                  · rcases dictSet_ids i hi with hm | hm
                    · left
                      simp only [idsOf, List.mem_cons]
                      exact Or.inr hm
                    · rcases ih hs i hm with hm' | hm'
                      · left
                        simp only [idsOf, List.mem_cons]
                        exact Or.inr (dictGet?_ids hg i hm')
                      · exact Or.inr hm'
      | .null, _ => simp only [setAtPath] at h; exact Option.noConfusion h
      | .bool _, _ => simp only [setAtPath] at h; exact Option.noConfusion h
      | .num _, _ => simp only [setAtPath] at h; exact Option.noConfusion h
      | .str _, _ => simp only [setAtPath] at h; exact Option.noConfusion h

theorem listSet_self {xs : List PyJson} {j : Nat} {v : PyJson}
    (h : xs[j]? = some v) : xs.set j v = xs := by
  induction xs generalizing j with
  | nil => simp at h
  | cons x rest ih =>
      match j with
      | 0 => simp at h; simp [List.set, h]
      | j' + 1 =>
          simp only [List.getElem?_cons_succ] at h
          simp [List.set, ih h]

theorem dictSet_get_self {es : List (Koi × PyJson)} {k : Koi} {v : PyJson}
    (h : dictGet? es k = some v) : dictSet es k v = es := by
  induction es with
  | nil => simp [dictGet?] at h
  | cons kv rest ih =>
      obtain ⟨k', v'⟩ := kv
      simp only [dictGet?] at h
      by_cases hk : k' = k
      · rw [if_pos hk] at h
        cases h
        simp [dictSet, hk]
      · rw [if_neg hk] at h
        simp [dictSet, hk, ih h]

/-- When navigation succeeded and reached a dict or list, the write-back
along the same path succeeds. -/
theorem setAtPath_of_navigateAux {path : List Koi} :
    ∀ {full : List Koi} {p : Option Koi} {pp : Option PyJson} {t : PyJson}
      {r : NavOut}, navigateAux full pp p t path = .ok r →
      isContainer r.path_target = true →
      ∀ nc, (setAtPath t path nc).isSome := by
  induction path with
  | nil =>
      intro full p pp t r h hc nc
      simp [setAtPath]
  | cons x rest ih =>
      intro full p pp t r h hc nc
      simp only [navigateAux] at h
      by_cases ht : truthy t
      · rw [if_pos ht] at h
        cases hl : pyLookup t x with
        | error e => simp only [hl] at h; exact Except.noConfusion h
        | ok next =>
            simp only [hl] at h
            match t, x with
            | .obj oid es, k =>
                simp only [pyLookup] at hl
                cases hg : dictGet? es k with
                | none => simp only [hg] at hl; exact Except.noConfusion hl
                | some w =>
                    simp only [hg] at hl
                    cases hl
                    simp only [setAtPath, hg]
                    cases hs : setAtPath next rest nc with
                    | none =>
                        have hsome := ih h hc nc
                        rw [hs] at hsome
                        simp at hsome
                    | some c' => simp
            | .arr aid xs, .i n =>
                simp only [pyLookup] at hl
                cases hn : normIdx n xs.length with
                | none => simp only [hn] at hl; exact Except.noConfusion hl
                | some j =>
                    simp only [hn] at hl
                    cases hx : xs[j]? with
                    | none => simp only [hx] at hl; exact Except.noConfusion hl
                    | some w =>
                        simp only [hx] at hl
                        cases hl
                        simp only [setAtPath, hn, hx]
                        cases hs : setAtPath next rest nc with
                        | none =>
                            have hsome := ih h hc nc
                            rw [hs] at hsome
                            simp at hsome
                        | some c' => simp
            | .arr _ _, .s _ => simp [pyLookup] at hl
            | .str s, xk =>
                obtain ⟨s2, hnext⟩ := pyLookup_str hl
                subst hnext
                obtain ⟨s', htar⟩ := navigateAux_str h
                rw [htar] at hc
                simp [isContainer] at hc
            | .null, _ => simp [pyLookup] at hl
            | .bool _, _ => simp [pyLookup] at hl
            | .num _, _ => simp [pyLookup] at hl
      · rw [if_neg ht] at h; exact Except.noConfusion h

/-- Writing the very target navigation reached back to its own path leaves
the tree unchanged (the no-op write-back). -/
theorem setAtPath_self {path : List Koi} :
    ∀ {full : List Koi} {p : Option Koi} {pp : Option PyJson} {t : PyJson}
      {r : NavOut}, navigateAux full pp p t path = .ok r →
      isContainer r.path_target = true →
      setAtPath t path r.path_target = some t := by
  induction path with
  | nil =>
      intro full p pp t r h hc
      simp only [navigateAux] at h
      cases h
      simp [setAtPath]
  | cons x rest ih =>
      intro full p pp t r h hc
      simp only [navigateAux] at h
      by_cases ht : truthy t
      · rw [if_pos ht] at h
        cases hl : pyLookup t x with
        | error e => simp only [hl] at h; exact Except.noConfusion h
        | ok next =>
            simp only [hl] at h
            match t, x with
            | .obj oid es, k =>
                simp only [pyLookup] at hl
                cases hg : dictGet? es k with
                | none => simp only [hg] at hl; exact Except.noConfusion hl
                | some w =>
                    simp only [hg] at hl
                    cases hl
                    simp only [setAtPath, hg, ih h hc]
                    simp [dictSet_get_self hg]
            | .arr aid xs, .i n =>
                simp only [pyLookup] at hl
                cases hn : normIdx n xs.length with
                | none => simp only [hn] at hl; exact Except.noConfusion hl
                | some j =>
                    simp only [hn] at hl
                    cases hx : xs[j]? with
                    | none => simp only [hx] at hl; exact Except.noConfusion hl
                    | some w =>
                        simp only [hx] at hl
                        cases hl
                        simp only [setAtPath, hn, hx, ih h hc]
                        simp [listSet_self hx]
            | .arr _ _, .s _ => simp [pyLookup] at hl
            | .str s, xk =>
                obtain ⟨s2, hnext⟩ := pyLookup_str hl
                subst hnext
                obtain ⟨s', htar⟩ := navigateAux_str h
                rw [htar] at hc
                simp [isContainer] at hc
            | .null, _ => simp [pyLookup] at hl
            | .bool _, _ => simp [pyLookup] at hl
            | .num _, _ => simp [pyLookup] at hl
      · rw [if_neg ht] at h; exact Except.noConfusion h

/-! ## Applying-phase invariants -/

theorem mutateParent_ids {action : String} {koi : Koi} {newKey : String}
    {target value parent' : PyJson}
    (h : mutateParent action koi newKey target value = .ok parent') :
    ∀ i ∈ idsOf parent', i ∈ idsOf target ∨ i ∈ idsOf value := by
  unfold mutateParent at h
  by_cases ha : action = "assign"
  · rw [if_pos ha] at h
    match target with
    | .arr aid xs =>
        cases hki : koi with
        | s k => simp only [hki] at h; exact Except.noConfusion h
        | i n =>
            simp only [hki] at h
            cases hn : normIdx n xs.length with
            | none => simp only [hn] at h; exact Except.noConfusion h
            | some j =>
                simp only [hn] at h
                cases h
                intro i hi
                simp only [idsOf, List.mem_cons] at hi
                rcases hi with rfl | hi
                · exact Or.inl (by simp [idsOf])
                · rcases listSet_ids xs j value i hi with hm | hm
                  · exact Or.inl (by simp only [idsOf, List.mem_cons]; exact Or.inr hm)
                  · exact Or.inr hm
    | .obj oid es =>
        simp only at h
        cases h
        intro i hi
        simp only [idsOf, List.mem_cons] at hi
        rcases hi with rfl | hi
        · exact Or.inl (by simp [idsOf])
        · rcases dictSet_ids i hi with hm | hm
          · exact Or.inl (by simp only [idsOf, List.mem_cons]; exact Or.inr hm)
          · exact Or.inr hm
    | .null => exact Except.noConfusion h
    | .bool _ => exact Except.noConfusion h
    | .num _ => exact Except.noConfusion h
    | .str _ => exact Except.noConfusion h
  rw [if_neg ha] at h
  by_cases hd : action = "delete"
  · rw [if_pos hd] at h
    match target with
    | .arr aid xs =>
        cases hk : pyToInt koi with
        | error e => simp only [hk] at h; exact Except.noConfusion h
        | ok n =>
            simp only [hk] at h
            cases hn : normIdx n xs.length with
            | none => simp only [hn] at h; exact Except.noConfusion h
            | some j =>
                simp only [hn] at h
                cases h
                intro i hi
                simp only [idsOf, List.mem_cons] at hi
                rcases hi with rfl | hi
                · exact Or.inl (by simp [idsOf])
                · exact Or.inl (by
                    simp only [idsOf, List.mem_cons]
                    exact Or.inr (eraseIdx_ids xs j i hi))
    | .obj oid es =>
        simp only at h
        cases h
        intro i hi
        simp only [idsOf, List.mem_cons] at hi
        rcases hi with rfl | hi
        · exact Or.inl (by simp [idsOf])
        · exact Or.inl (by
            simp only [idsOf, List.mem_cons]
            exact Or.inr (dictPop_ids i hi))
    | .null => exact Except.noConfusion h
    | .bool _ => exact Except.noConfusion h
    | .num _ => exact Except.noConfusion h
    | .str _ => exact Except.noConfusion h
  rw [if_neg hd] at h
  by_cases hap : action = "append"
  · rw [if_pos hap] at h
    match target with
    | .arr aid xs =>
        simp only at h
        cases h
        intro i hi
        simp only [idsOf, List.mem_cons, idsOfList_append, List.mem_append] at hi
        rcases hi with rfl | hi | hi
        · exact Or.inl (by simp [idsOf])
        · exact Or.inl (by simp only [idsOf, List.mem_cons]; exact Or.inr hi)
        · simp only [idsOfList, List.append_nil] at hi
          exact Or.inr hi
    | .obj _ _ => exact Except.noConfusion h
    | .null => exact Except.noConfusion h
    | .bool _ => exact Except.noConfusion h
    | .num _ => exact Except.noConfusion h
    | .str _ => exact Except.noConfusion h
  rw [if_neg hap] at h
  by_cases hins : action = "insert"
  · rw [if_pos hins] at h
    match target with
    | .arr aid xs =>
        cases hk : pyToInt koi with
        | error e => simp only [hk] at h; exact Except.noConfusion h
        | ok n =>
            simp only [hk] at h
            cases h
            intro i hi
            simp only [idsOf, List.mem_cons] at hi
            rcases hi with rfl | hi
            · exact Or.inl (by simp [idsOf])
            · rcases listInsAt_ids i hi with hm | hm
              · exact Or.inl (by simp only [idsOf, List.mem_cons]; exact Or.inr hm)
              · exact Or.inr hm
    | .obj _ _ => exact Except.noConfusion h
    | .null => exact Except.noConfusion h
    | .bool _ => exact Except.noConfusion h
    | .num _ => exact Except.noConfusion h
    | .str _ => exact Except.noConfusion h
  rw [if_neg hins] at h
  by_cases hr : action = "rename"
  · rw [if_pos hr] at h
    match target with
    | .arr _ _ => exact Except.noConfusion h
    | .obj oid es =>
        simp only at h
        cases h
        intro i hi
        simp only [idsOf, List.mem_cons] at hi
        rcases hi with rfl | hi
        · exact Or.inl (by simp [idsOf])
        · have h1 := dictPop_ids i hi
          rcases dictSet_ids i h1 with hm | hm
          · exact Or.inl (by simp only [idsOf, List.mem_cons]; exact Or.inr hm)
          · cases hg : dictGet? es koi with
            | none => rw [hg] at hm; simp [idsOf] at hm
            | some w =>
                rw [hg] at hm
                simp only [Option.getD_some] at hm
                exact Or.inl (by
                  simp only [idsOf, List.mem_cons]
                  exact Or.inr (dictGet?_ids hg i hm))
    | .null => exact Except.noConfusion h
    | .bool _ => exact Except.noConfusion h
    | .num _ => exact Except.noConfusion h
    | .str _ => exact Except.noConfusion h
  rw [if_neg hr] at h
  exact Except.noConfusion h

theorem resolveValue_inv {objMod : PyJson} {c : Nat} {d : Option DataField} :
    c ≤ (resolveValue objMod c d).2 ∧
      ∀ v, (resolveValue objMod c d).1 = .ok v →
        ∀ i ∈ idsOf v, c ≤ i ∨ i ∈ idsOf objMod := by
  match d with
  | none =>
      refine ⟨le_refl c, ?_⟩
      intro v hv i hi
      simp only [resolveValue] at hv
      cases hv
      simp [idsOf] at hi
  | some (.inline_value env) =>
      have h := unpack_ids env c
      refine ⟨h.1, ?_⟩
      intro v hv i hi
      simp only [resolveValue] at hv
      cases hv
      exact Or.inl (h.2 i hi)
  | some (.json_path_of_copy_source path) =>
      simp only [resolveValue]
      cases hnav : navigate_to_json_path objMod path with
      | error e =>
          refine ⟨le_refl c, ?_⟩
          intro v hv i hi
          exact Except.noConfusion hv
      | ok r =>
          have h := deep_copy_json_ids r.path_target c
          refine ⟨h.1, ?_⟩
          intro v hv i hi
          cases hv
          exact Or.inl (h.2 i hi)

theorem applyAtParent_inv {objMod value : PyJson} {n : Nat} {m : Modification}
    {r : NavOut} (hids : IdsGe n objMod)
    (hv : ∀ i ∈ idsOf value, n ≤ i ∨ i ∈ idsOf objMod)
    (hnav : navigate_to_json_path objMod m.json_path_of_parent = .ok r) :
    ∀ obj' pid, applyAtParent objMod m value r = .ok (obj', pid) →
      IdsGe n obj' ∧ n ≤ pid := by
  intro obj' pid h
  unfold applyAtParent at h
  by_cases hcont : isContainer r.path_target = true
  · rw [if_pos hcont] at h
    cases hmut : mutateParent m.action m.key_or_index m.new_key_name
        r.path_target value with
    | error e => rw [hmut] at h; exact Except.noConfusion h
    | ok parent' =>
        rw [hmut] at h
        cases h
        constructor
        · intro i hi
          cases hset : setAtPath objMod m.json_path_of_parent parent' with
          | none =>
              rw [hset] at hi
              simp only [Option.getD_none] at hi
              exact hids i hi
          | some res =>
              rw [hset] at hi
              simp only [Option.getD_some] at hi
              rcases setAtPath_ids hset i hi with hm | hm
              · exact hids i hm
              · rcases mutateParent_ids hmut i hm with hm' | hm'
                · exact hids i (navigate_to_json_path_ids hnav i hm')
                · rcases hv i hm' with hge | hmem
                  · exact hge
                  · exact hids i hmem
        · exact hids _ (navigate_to_json_path_ids hnav _ (oidOf_mem hcont))
  · rw [if_neg hcont] at h
    exact Except.noConfusion h

theorem applyOneOp_inv {objMod : PyJson} {c n : Nat} {m : Modification}
    (hids : IdsGe n objMod) (hc : n ≤ c) :
    c ≤ (applyOneOp objMod c m).2 ∧
      ∀ obj' pid, (applyOneOp objMod c m).1 = .ok (obj', pid) →
        IdsGe n obj' ∧ n ≤ pid := by
  unfold applyOneOp
  have hrv := @resolveValue_inv objMod c m.data
  refine ⟨hrv.1, ?_⟩
  intro obj' pid h
  cases hval : (resolveValue objMod c m.data).1 with
  | error e =>
      simp only [hval] at h
      exact Except.noConfusion h
  | ok value =>
      simp only [hval] at h
      by_cases ha : m.action = ""
      · rw [if_pos ha] at h; exact Except.noConfusion h
      rw [if_neg ha] at h
      by_cases hr : m.action = "rename" ∧ m.new_key_name = ""
      · rw [if_pos hr] at h; exact Except.noConfusion h
      rw [if_neg hr] at h
      cases hnav : navigate_to_json_path objMod m.json_path_of_parent with
      | error e => rw [hnav] at h; exact Except.noConfusion h
      | ok r =>
          rw [hnav] at h
          have hv : ∀ i ∈ idsOf value, n ≤ i ∨ i ∈ idsOf objMod := by
            intro i hi
            rcases hrv.2 value hval i hi with hge | hmem
            · exact Or.inl (le_trans hc hge)
            · exact Or.inr hmem
          exact applyAtParent_inv hids hv hnav obj' pid h

theorem applyBatch_inv {mods : List Modification} :
    ∀ {objMod : PyJson} {c n : Nat}, IdsGe n objMod → n ≤ c →
      IdsGe n (applyBatch objMod c mods).1 ∧
        c ≤ (applyBatch objMod c mods).2.1 ∧
        ∀ i ∈ (applyBatch objMod c mods).2.2.2, n ≤ i := by
  induction mods with
  | nil =>
      intro objMod c n hids hc
      simp only [applyBatch]
      exact ⟨hids, le_refl c, fun i hi => by simp at hi⟩
  | cons m rest ih =>
      intro objMod c n hids hc
      have hone := applyOneOp_inv (m := m) hids hc
      simp only [applyBatch]
      cases hres : applyOneOp objMod c m with
      | mk fst c' =>
          cases fst with
          | ok pr =>
              obtain ⟨obj', pid⟩ := pr
              dsimp only
              have hres1 : (applyOneOp objMod c m).1 = .ok (obj', pid) := by
                rw [hres]
              have hres2 : (applyOneOp objMod c m).2 = c' := by rw [hres]
              have hok := hone.2 obj' pid hres1
              have hc' : n ≤ c' := by
                have := hone.1
                omega
              have hrec := ih hok.1 hc'
              refine ⟨hrec.1, ?_, ?_⟩
              · have hcc' : c ≤ c' := by rw [hres2] at hone; exact hone.1
                exact le_trans hcc' hrec.2.1
              · intro i hi
                simp only [List.mem_cons] at hi
                rcases hi with rfl | hi
                · exact hok.2
                · exact hrec.2.2 i hi
          | error e =>
              dsimp only
              have hres2 : (applyOneOp objMod c m).2 = c' := by rw [hres]
              have hc' : n ≤ c' := by
                have := hone.1
                omega
              have hrec := ih hids hc'
              refine ⟨hrec.1, ?_, hrec.2.2⟩
              have hcc' : c ≤ c' := by rw [hres2] at hone; exact hone.1
              exact le_trans hcc' hrec.2.1

/-! ## Session-level invariants -/

/-- The session state a step result carries. -/
def StepResult.state : StepResult → SessionState
  | .continueLoop st => st
  | .finished _ st => st
  | .budgetExceeded _ _ st => st

/-- The caller's exit-validation callback never supplies a corrected
document (or there is no callback).  This is the hypothesis under which the
returned document is guaranteed to be a fresh copy; `obj_corrected` is
adopted without copying (line 591). -/
def NoCorrected (opts : JSONSurgeryOptions) : Prop :=
  ∀ f, opts.on_validate_before_return = some f →
    ∀ x vr, f x = some vr → vr.obj_corrected = none

/-- The unconditional session invariant: the counter never decreases below
its starting point and every mutated identifier was allocated by the
session itself. -/
def StInv (c0 : Nat) (st : SessionState) : Prop :=
  c0 ≤ st.counter ∧ ∀ i ∈ st.mutatedIds, c0 ≤ i

/-- The snapshot invariant: additionally, every identifier in the current
snapshot is session-allocated. -/
def StObjInv (c0 : Nat) (st : SessionState) : Prop :=
  StInv c0 st ∧ IdsGe c0 st.obj

theorem wipProcess_counter (opts : JSONSurgeryOptions) (obj : PyJson) (c : Nat) :
    c ≤ (wipProcess opts obj c).2 := by
  cases hopt : opts.on_work_in_progress with
  | none => simp [wipProcess, hopt]
  | some f =>
      cases hres : f (deep_copy_json obj c).1 with
      | none =>
          simp only [wipProcess, hopt, hres]
          exact (deep_copy_json_ids obj c).1
      | some replacement =>
          have h1 := (deep_copy_json_ids obj c).1
          have h2 := (deep_copy_json_ids replacement (deep_copy_json obj c).2).1
          simp only [wipProcess, hopt, hres]
          omega

theorem wipProcess_obj {opts : JSONSurgeryOptions} {obj : PyJson} {c m : Nat}
    (hobj : IdsGe m obj) (hm : m ≤ c) : IdsGe m (wipProcess opts obj c).1 := by
  cases hopt : opts.on_work_in_progress with
  | none => simpa [wipProcess, hopt] using hobj
  | some f =>
      cases hres : f (deep_copy_json obj c).1 with
      | none => simpa [wipProcess, hopt, hres] using hobj
      | some replacement =>
          have h1 := (deep_copy_json_ids obj c).1
          have h2 := (deep_copy_json_ids replacement (deep_copy_json obj c).2).2
          simp only [wipProcess, hopt, hres]
          intro i hi
          exact le_trans hm (le_trans h1 (h2 i hi))

theorem runExitValidation_counter (opts : JSONSurgeryOptions) (obj : PyJson)
    (c : Nat) : c ≤ (runExitValidation opts obj c).2.1 := by
  cases hopt : opts.on_validate_before_return with
  | none => simp [runExitValidation, hopt]
  | some f =>
      have h1 := (deep_copy_json_ids obj c).1
      cases hres : f (deep_copy_json obj c).1 with
      | none =>
          simp only [runExitValidation, hopt, hres]
          exact h1
      | some vr =>
          by_cases ht : vrTruthy vr = true
          · simp only [runExitValidation, hopt, hres, if_pos ht]
            exact h1
          · simp only [runExitValidation, hopt, hres, if_neg ht]
            exact h1

theorem runExitValidation_obj {opts : JSONSurgeryOptions} {obj : PyJson} {c : Nat}
    (hnc : NoCorrected opts) : (runExitValidation opts obj c).1 = obj := by
  cases hopt : opts.on_validate_before_return with
  | none => simp [runExitValidation, hopt]
  | some f =>
      cases hres : f (deep_copy_json obj c).1 with
      | none => simp [runExitValidation, hopt, hres]
      | some vr =>
          have hcorr := hnc f hopt _ vr hres
          by_cases ht : vrTruthy vr = true
          · simp only [runExitValidation, hopt, hres, if_pos ht]
            simp [hcorr]
          · simp only [runExitValidation, hopt, hres, if_neg ht]


theorem mainPhase_StInv {opts : JSONSurgeryOptions} {st : SessionState}
    {ev : IterEvent} {obj1 : PyJson} {c0 c1 n : Nat}
    (hc : c0 ≤ c1) (hmut : ∀ i ∈ st.mutatedIds, c0 ≤ i) :
    StInv c0 (mainPhase opts st ev obj1 c1 n).state := by
  unfold mainPhase
  split
  · -- modifications empty
    have hcnt := runExitValidation_counter opts obj1 c1
    split
    rename_i obj2 c2 errs hrev
    rw [hrev] at hcnt
    split
    · exact ⟨le_trans hc hcnt, hmut⟩
    · exact ⟨le_trans hc hcnt, hmut⟩
  · -- batch
    have hdc := deep_copy_json_ids obj1 c1
    split
    rename_i scratch c2 hdcp
    rw [hdcp] at hdc
    split
    rename_i objM c3 obs log hab
    have hbatch := @applyBatch_inv ev.modifications scratch c2 c1 hdc.2 hdc.1
    rw [hab] at hbatch
    split
    · refine ⟨le_trans hc (le_trans hdc.1 hbatch.2.1), ?_⟩
      intro i hi
      rcases List.mem_append.mp hi with hi | hi
      · exact hmut i hi
      · exact le_trans hc (hbatch.2.2 i hi)
    · refine ⟨le_trans hc (le_trans hdc.1 hbatch.2.1), ?_⟩
      intro i hi
      rcases List.mem_append.mp hi with hi | hi
      · exact hmut i hi
      · exact le_trans hc (hbatch.2.2 i hi)

theorem mainPhase_finished_ret {opts : JSONSurgeryOptions} {st : SessionState}
    {ev : IterEvent} {obj1 : PyJson} {c1 n : Nat} {r : PyJson} {st' : SessionState}
    (h : mainPhase opts st ev obj1 c1 n = .finished r st') : r = st'.obj := by
  unfold mainPhase at h
  split at h
  · split at h
    rename_i obj2 c2 errs hrev
    split at h
    · cases h; rfl
    · exact StepResult.noConfusion h
  · split at h
    rename_i scratch c2 hdcp
    split at h
    rename_i objM c3 obs log hab
    split at h
    · exact StepResult.noConfusion h
    · exact StepResult.noConfusion h

theorem mainPhase_obj {opts : JSONSurgeryOptions} {st : SessionState}
    {ev : IterEvent} {obj1 : PyJson} {c0 c1 n : Nat}
    (hnc : NoCorrected opts) (hobj : IdsGe c0 obj1) (hc : c0 ≤ c1) :
    IdsGe c0 (mainPhase opts st ev obj1 c1 n).state.obj := by
  unfold mainPhase
  split
  · have hre := @runExitValidation_obj opts obj1 c1 hnc
    split
    rename_i obj2 c2 errs hrev
    rw [hrev] at hre
    simp only at hre
    subst hre
    split
    · exact hobj
    · exact hobj
  · have hdc := deep_copy_json_ids obj1 c1
    split
    rename_i scratch c2 hdcp
    rw [hdcp] at hdc
    split
    rename_i objM c3 obs log hab
    have hbatch := @applyBatch_inv ev.modifications scratch c2 c1 hdc.2 hdc.1
    rw [hab] at hbatch
    split
    · intro i hi
      exact le_trans hc (hbatch.1 i hi)
    · exact hobj

theorem stepIteration_StInv {opts : JSONSurgeryOptions} {st : SessionState}
    {ev : IterEvent} {c0 : Nat} (hinv : StInv c0 st) :
    StInv c0 (stepIteration opts st ev).state := by
  unfold stepIteration
  by_cases hn : st.num_iterations + 1 > 1
  · simp only [if_pos hn]
    have hwipc := wipProcess_counter opts st.obj st.counter
    split
    · have hdc := (deep_copy_json_ids (wipProcess opts st.obj st.counter).1
        (wipProcess opts st.obj st.counter).2).1
      exact ⟨le_trans hinv.1 (le_trans hwipc hdc), hinv.2⟩
    · exact mainPhase_StInv (le_trans hinv.1 hwipc) hinv.2
  · simp only [if_neg hn]
    exact mainPhase_StInv hinv.1 hinv.2

theorem stepIteration_StObjInv {opts : JSONSurgeryOptions} {st : SessionState}
    {ev : IterEvent} {c0 : Nat} (hnc : NoCorrected opts) (hinv : StObjInv c0 st) :
    StObjInv c0 (stepIteration opts st ev).state := by
  refine ⟨stepIteration_StInv hinv.1, ?_⟩
  unfold stepIteration
  by_cases hn : st.num_iterations + 1 > 1
  · simp only [if_pos hn]
    have hwipc := wipProcess_counter opts st.obj st.counter
    have hwipo := @wipProcess_obj opts st.obj st.counter c0 hinv.2 hinv.1.1
    split
    · exact hwipo
    · exact mainPhase_obj hnc hwipo (le_trans hinv.1.1 hwipc)
  · simp only [if_neg hn]
    exact mainPhase_obj hnc hinv.2 hinv.1.1

theorem stepIteration_finished_ret {opts : JSONSurgeryOptions} {st : SessionState}
    {ev : IterEvent} {r : PyJson} {st' : SessionState}
    (h : stepIteration opts st ev = .finished r st') : r = st'.obj := by
  unfold stepIteration at h
  by_cases hn : st.num_iterations + 1 > 1
  · simp only [if_pos hn] at h
    split at h
    · exact StepResult.noConfusion h
    · exact mainPhase_finished_ret h
  · simp only [if_neg hn] at h
    exact mainPhase_finished_ret h

/-- The session state a run outcome carries. -/
def RunOutcome.state : RunOutcome → SessionState
  | .finished _ st => st
  | .budgetExceeded _ _ st => st
  | .suspended st => st

theorem runSession_StInv {opts : JSONSurgeryOptions} {c0 : Nat} :
    ∀ {trace : List IterEvent} {st : SessionState}, StInv c0 st →
      StInv c0 (runSession opts st trace).state := by
  intro trace
  induction trace with
  | nil => intro st hinv; exact hinv
  | cons ev rest ih =>
      intro st hinv
      have hstep := @stepIteration_StInv opts st ev c0 hinv
      unfold runSession
      cases hs : stepIteration opts st ev with
      | continueLoop st' =>
          rw [hs] at hstep
          exact ih hstep
      | finished r st' =>
          rw [hs] at hstep
          exact hstep
      | budgetExceeded k e st' =>
          rw [hs] at hstep
          exact hstep

theorem runSession_StObjInv {opts : JSONSurgeryOptions} {c0 : Nat}
    (hnc : NoCorrected opts) :
    ∀ {trace : List IterEvent} {st : SessionState}, StObjInv c0 st →
      StObjInv c0 (runSession opts st trace).state := by
  intro trace
  induction trace with
  | nil => intro st hinv; exact hinv
  | cons ev rest ih =>
      intro st hinv
      have hstep := @stepIteration_StObjInv opts st ev c0 hnc hinv
      unfold runSession
      cases hs : stepIteration opts st ev with
      | continueLoop st' =>
          rw [hs] at hstep
          exact ih hstep
      | finished r st' =>
          rw [hs] at hstep
          exact hstep
      | budgetExceeded k e st' =>
          rw [hs] at hstep
          exact hstep

theorem runSession_finished_ret {opts : JSONSurgeryOptions} :
    ∀ {trace : List IterEvent} {st : SessionState} {r : PyJson}
      {st' : SessionState}, runSession opts st trace = .finished r st' →
      r = st'.obj := by
  intro trace
  induction trace with
  | nil => intro st r st' h; exact RunOutcome.noConfusion h
  | cons ev rest ih =>
      intro st r st' h
      unfold runSession at h
      cases hs : stepIteration opts st ev with
      | continueLoop st1 =>
          rw [hs] at h
          exact ih h
      | finished r1 st1 =>
          rw [hs] at h
          cases h
          exact stepIteration_finished_ret hs
      | budgetExceeded k e st1 =>
          rw [hs] at h
          exact RunOutcome.noConfusion h

theorem json_surgery_not_null {opts : JSONSurgeryOptions} {input : PyJson}
    {c0 : Nat} {trace : List IterEvent} (hne : input ≠ .null) :
    json_surgery opts input c0 trace =
      .run (runSession opts
        (initState (deep_copy_json input c0).1 (deep_copy_json input c0).2)
        trace) := by
  cases input with
  | null => exact absurd rfl hne
  | bool b => rfl
  | num n => rfl
  | str s => rfl
  | arr oid items => rfl
  | obj oid entries => rfl

/-- The exit path taken on the very first iteration when the collaborator
proposes nothing and no validation callback is configured: the session
returns its snapshot as is. -/
theorem mainPhase_noop {opts : JSONSurgeryOptions} {st : SessionState}
    {ev : IterEvent} {obj1 : PyJson} {c1 n : Nat}
    (hmods : ev.modifications = []) (hval : opts.on_validate_before_return = none) :
    mainPhase opts st ev obj1 c1 n =
      .finished obj1 { st with obj := obj1, counter := c1, num_iterations := n } := by
  unfold mainPhase
  rw [hmods]
  simp only [List.isEmpty_nil, if_pos]
  unfold runExitValidation
  rw [hval]
  rfl

/-! ## Claim C1 -/

/-- Projections used to state frame properties of a whole call. -/
theorem surgeryOutcome_state_run (o : RunOutcome) :
    (SurgeryOutcome.run o).state = some o.state := by
  cases o <;> rfl

/-- The document of C1's counterexample run: the caller's object, whose
root dict is the Python object with identifier 0. -/
def c1Input : PyJson := .obj 0 [(.s "status", .str "pending")]

/-- Options whose exit-validation callback hands the caller's own object
back as `obj_corrected` (a closure over the input, as any caller can
write). -/
def c1Opts : JSONSurgeryOptions :=
  { on_validate_before_return := some (fun _ => some ⟨some c1Input, none⟩),
    on_work_in_progress := none,
    give_up_after_seconds := none,
    give_up_after_iterations := none }

/-- A single iteration in which the collaborator proposes no modifications. -/
def c1Trace : List IterEvent := [⟨0, [], "", "", true, "", ""⟩]

/-- C1 counterexample: the claim says the value returned on success is
never identity-equal to the caller's input.  But `obj =
validation_result["obj_corrected"]` (json_surgery.py line 591) adopts the
callback's object without copying, so when the exit-validation callback
returns the caller's own object, `json_surgery` returns that very object:
the returned value carries the input's container identifier 0, i.e. it *is*
the caller's dict. -/
theorem C1_counterexample :
    (json_surgery c1Opts c1Input 1 c1Trace).ret = some c1Input ∧
      0 ∈ idsOf c1Input ∧ oidOf c1Input = 0 := by
  refine ⟨rfl, ?_, rfl⟩
  simp [c1Input, idsOf]

/-- C1 (amended): for every input document and every run of `json_surgery`,
the caller-supplied object is never mutated (every container the engine
mutates in place was allocated by the session itself, never one of the
input's); when the exit-validation callback never supplies an
`obj_corrected` document, the value returned on success shares no container
object with the input (it is a distinct copy); and a run whose single
iteration proposes no modifications, with no validation callback, returns
the entry deep copy of the input: structurally equal to it but sharing no
container object with it.  (The unamended claim fails only at line 591,
where `obj_corrected` is adopted without copying — see
`C1_counterexample`.) -/
theorem C1_amended (opts : JSONSurgeryOptions) (input : PyJson) (c0 : Nat)
    (trace : List IterEvent) (hfresh : ∀ i ∈ idsOf input, i < c0) :
    (∀ i ∈ (json_surgery opts input c0 trace).mutated, i ∉ idsOf input) ∧
    (NoCorrected opts → ∀ r st,
      json_surgery opts input c0 trace = .run (.finished r st) →
      ∀ i ∈ idsOf r, i ∉ idsOf input) ∧
    (∀ ev : IterEvent, ev.modifications = [] →
      opts.on_validate_before_return = none → input ≠ .null →
      allStrKeys input = true →
      json_surgery opts input c0 [ev] =
        .run (.finished (deep_copy_json input c0).1
          ⟨(deep_copy_json input c0).1, (deep_copy_json input c0).2, 1, [],
            none, .nothingYet, true, []⟩) ∧
      structEq (deep_copy_json input c0).1 input = true ∧
      ∀ i ∈ idsOf (deep_copy_json input c0).1, i ∉ idsOf input) := by
  have hdc := deep_copy_json_ids input c0
  refine ⟨?_, ?_, ?_⟩
  · -- the engine never mutates a container of the caller's object
    intro i hi hmem
    by_cases hne : input = .null
    · subst hne
      simp [json_surgery, SurgeryOutcome.mutated, SurgeryOutcome.state] at hi
    · rw [json_surgery_not_null hne] at hi
      have hinv : StInv c0 (initState (deep_copy_json input c0).1
          (deep_copy_json input c0).2) :=
        ⟨hdc.1, fun j hj => by simp [initState] at hj⟩
      have hrun := @runSession_StInv opts c0 trace _ hinv
      rw [SurgeryOutcome.mutated, surgeryOutcome_state_run] at hi
      have := hrun.2 i hi
      have := hfresh i hmem
      omega
  · -- on success the returned document is identifier-disjoint from the input
    intro hnc r st h i hi hmem
    by_cases hne : input = .null
    · subst hne
      rw [show json_surgery opts PyJson.null c0 trace =
        SurgeryOutcome.noneInputError from rfl] at h
      exact SurgeryOutcome.noConfusion h
    · rw [json_surgery_not_null hne] at h
      injection h with h2
      have hinv : StObjInv c0 (initState (deep_copy_json input c0).1
          (deep_copy_json input c0).2) :=
        ⟨⟨hdc.1, fun j hj => by simp [initState] at hj⟩, hdc.2⟩
      have hrun := @runSession_StObjInv opts c0 hnc trace _ hinv
      rw [h2] at hrun
      have hret := runSession_finished_ret h2
      have hge : c0 ≤ i := hrun.2 i (hret ▸ hi)
      have := hfresh i hmem
      omega
  · -- the no-op run returns the entry copy: structurally equal, disjoint ids
    intro ev hmods hval hne hkeys
    refine ⟨?_, structEq_deep_copy input c0 hkeys, ?_⟩
    · rw [json_surgery_not_null hne]
      have hstep : stepIteration opts
          (initState (deep_copy_json input c0).1 (deep_copy_json input c0).2) ev =
          .finished (deep_copy_json input c0).1
            ⟨(deep_copy_json input c0).1, (deep_copy_json input c0).2, 1, [],
              none, .nothingYet, true, []⟩ := by
        unfold stepIteration
        simp only [initState]
        rw [if_neg (by omega), if_neg (by omega)]
        exact mainPhase_noop hmods hval
      unfold runSession
      rw [hstep]
    · intro i hi hmem
      have h1 := hdc.2 i hi
      have h2 := hfresh i hmem
      omega

/-- Concrete input for the C1 witness (root dict has identifier 0). -/
def c1wInput : PyJson := .obj 0 [(.s "a", .num 1)]

/-- A single no-op iteration event for the C1 witness. -/
def c1wEv : IterEvent := ⟨0, [], "", "", true, "", ""⟩

/-- Witness for `C1_amended` at a concrete input: the no-op run on
`{"a": 1}` returns the entry deep copy (root identifier 1, structurally
equal to the input). -/
theorem C1_witness :
    allStrKeys c1wInput = true ∧
    json_surgery noOptions c1wInput 1 [c1wEv] =
      .run (.finished (deep_copy_json c1wInput 1).1
        ⟨(deep_copy_json c1wInput 1).1, (deep_copy_json c1wInput 1).2, 1, [],
          none, .nothingYet, true, []⟩) ∧
    structEq (deep_copy_json c1wInput 1).1 c1wInput = true := by
  have h := (C1_amended noOptions c1wInput 1 [c1wEv] (by decide)).2.2 c1wEv rfl rfl
    (fun hnull => PyJson.noConfusion hnull) rfl
  exact ⟨rfl, h.1, h.2.1⟩

/-! ## Claim C2 -/

/-- Input document of the C2 counterexample (root identifier 0). -/
def c2Input : PyJson := .obj 0 [(.s "a", .num 1)]

/-- Replacement document the work-in-progress callback supplies. -/
def c2Replacement : PyJson := .obj 0 [(.s "a", .num 2)]

/-- Options with a work-in-progress callback that replaces the snapshot. -/
def c2Opts : JSONSurgeryOptions :=
  { on_validate_before_return := none,
    on_work_in_progress := some (fun _ => some c2Replacement),
    give_up_after_seconds := none, give_up_after_iterations := none }

/-- A modification batch whose verification verdict rejects it. -/
def c2Mod : Modification :=
  ⟨[], .s "a", "assign", "", some (.inline_value (.numerical_value 5))⟩

/-- Two iterations: a rejected batch, then a no-op exit.  No batch is ever
approved (`should_we_keep_these_changes` is `false` throughout). -/
def c2Trace : List IterEvent :=
  [⟨0, [c2Mod], "i", "a", false, "r", "n"⟩, ⟨0, [], "", "", false, "", ""⟩]

/-- C2 counterexample: the claim says the current snapshot is always the
last verification-approved batch result or the initial copy.  In this run
no batch is ever approved, yet the session exits with snapshot `{"a": 2}` —
neither the initial copy `{"a": 1}` nor any batch result — because the
`on_work_in_progress` callback (lines 389-393) replaced the snapshot
without any verification. -/
theorem C2_counterexample :
    c2Trace.all (fun ev => !ev.should_we_keep_these_changes) = true ∧
    ((json_surgery c2Opts c2Input 1 c2Trace).ret.map
      (fun r => structEq r c2Input)) = some false ∧
    ((json_surgery c2Opts c2Input 1 c2Trace).ret.map
      (fun r => structEq r c2Replacement)) = some true :=
  ⟨rfl, rfl, rfl⟩

/-- C2 (amended): each batch is applied to a scratch deep copy of the
post-housekeeping snapshot; when the verifier answers
`should_we_keep_these_changes = false` the scratch copy is discarded and
the snapshot keeps its post-housekeeping value, and when it answers `true`
the scratch result becomes the snapshot.  With no work-in-progress callback
the housekeeping leaves the snapshot untouched, so a rejected batch leaves
the session snapshot exactly unchanged; the snapshot can deviate from
"initial copy or last approved batch" only through the caller's callbacks
(see `C2_counterexample`). -/
theorem C2_amended :
    (∀ (opts : JSONSurgeryOptions) (st : SessionState) (ev : IterEvent)
      (obj1 : PyJson) (c1 n : Nat), ev.modifications ≠ [] →
      ev.should_we_keep_these_changes = false →
      mainPhase opts st ev obj1 c1 n = .continueLoop
        { obj := obj1,
          counter := (applyBatch (deep_copy_json obj1 c1).1
            (deep_copy_json obj1 c1).2 ev.modifications).2.1,
          num_iterations := n,
          operations_done_so_far := st.operations_done_so_far ++
            [.failedBatch ev.description_of_changes_intended ev.reason_to_revert],
          operation_last := some (.failedBatch ev.description_of_changes_intended
            ev.reason_to_revert),
          operation_next := .fromReply ev.next_step,
          operation_last_was_successful := false,
          mutatedIds := st.mutatedIds ++ (applyBatch (deep_copy_json obj1 c1).1
            (deep_copy_json obj1 c1).2 ev.modifications).2.2.2 }) ∧
    (∀ (opts : JSONSurgeryOptions) (st : SessionState) (ev : IterEvent)
      (obj1 : PyJson) (c1 n : Nat), ev.modifications ≠ [] →
      ev.should_we_keep_these_changes = true →
      mainPhase opts st ev obj1 c1 n = .continueLoop
        { obj := (applyBatch (deep_copy_json obj1 c1).1
            (deep_copy_json obj1 c1).2 ev.modifications).1,
          counter := (applyBatch (deep_copy_json obj1 c1).1
            (deep_copy_json obj1 c1).2 ev.modifications).2.1,
          num_iterations := n,
          operations_done_so_far := st.operations_done_so_far ++
            [.doneBatch ev.description_of_changes_applied],
          operation_last := some (.doneBatch ev.description_of_changes_applied),
          operation_next := .fromReply ev.next_step,
          operation_last_was_successful := true,
          mutatedIds := st.mutatedIds ++ (applyBatch (deep_copy_json obj1 c1).1
            (deep_copy_json obj1 c1).2 ev.modifications).2.2.2 }) ∧
    (∀ (opts : JSONSurgeryOptions) (obj : PyJson) (c : Nat),
      opts.on_work_in_progress = none → wipProcess opts obj c = (obj, c)) ∧
    (∀ (opts : JSONSurgeryOptions) (st : SessionState) (ev : IterEvent),
      opts.on_work_in_progress = none →
      budgetCheck opts (st.num_iterations + 1) ev.seconds_elapsed = none →
      ev.modifications ≠ [] → ev.should_we_keep_these_changes = false →
      (stepIteration opts st ev).state.obj = st.obj) := by
  have hbatchRej : ∀ (opts : JSONSurgeryOptions) (st : SessionState)
      (ev : IterEvent) (obj1 : PyJson) (c1 n : Nat), ev.modifications ≠ [] →
      ev.should_we_keep_these_changes = false →
      mainPhase opts st ev obj1 c1 n = .continueLoop
        { obj := obj1,
          counter := (applyBatch (deep_copy_json obj1 c1).1
            (deep_copy_json obj1 c1).2 ev.modifications).2.1,
          num_iterations := n,
          operations_done_so_far := st.operations_done_so_far ++
            [.failedBatch ev.description_of_changes_intended ev.reason_to_revert],
          operation_last := some (.failedBatch ev.description_of_changes_intended
            ev.reason_to_revert),
          operation_next := .fromReply ev.next_step,
          operation_last_was_successful := false,
          mutatedIds := st.mutatedIds ++ (applyBatch (deep_copy_json obj1 c1).1
            (deep_copy_json obj1 c1).2 ev.modifications).2.2.2 } := by
    intro opts st ev obj1 c1 n hmods hkeep
    unfold mainPhase
    rw [if_neg (by simpa [List.isEmpty_iff] using hmods)]
    rw [hkeep]
    rfl
  refine ⟨hbatchRej, ?_, ?_, ?_⟩
  · intro opts st ev obj1 c1 n hmods hkeep
    unfold mainPhase
    rw [if_neg (by simpa [List.isEmpty_iff] using hmods)]
    rw [hkeep]
    rfl
  · intro opts obj c hwip
    unfold wipProcess
    rw [hwip]
  · intro opts st ev hwip hbud hmods hkeep
    unfold stepIteration
    by_cases hn : st.num_iterations + 1 > 1
    · simp only [if_pos hn]
      rw [hbud]
      rw [hbatchRej opts st ev (wipProcess opts st.obj st.counter).1
        (wipProcess opts st.obj st.counter).2 (st.num_iterations + 1) hmods hkeep]
      show (wipProcess opts st.obj st.counter).1 = st.obj
      unfold wipProcess
      rw [hwip]
    · simp only [if_neg hn]
      rw [hbatchRej opts st ev st.obj st.counter (st.num_iterations + 1) hmods hkeep]
      rfl

/-- Session state for the C2 witness. -/
def c2wSt : SessionState :=
  ⟨.obj 5 [(.s "a", .num 1)], 6, 3, [], none, .nothingYet, true, []⟩

/-- Rejected-batch iteration event for the C2 witness. -/
def c2wEv : IterEvent := ⟨2, [c2Mod], "i", "a", false, "r", "n"⟩

/-- Witness for `C2_amended`: with no callbacks and no budgets, a rejected
batch leaves the concrete session snapshot exactly unchanged. -/
theorem C2_witness : (stepIteration noOptions c2wSt c2wEv).state.obj = c2wSt.obj :=
  C2_amended.2.2.2 noOptions c2wSt c2wEv rfl rfl
    (fun h => List.noConfusion h) rfl

/-! ## Claim C3 -/

/-- The main phase never raises a budget error: only the housekeeping can. -/
theorem mainPhase_not_budget {opts : JSONSurgeryOptions} {st : SessionState}
    {ev : IterEvent} {obj1 : PyJson} {c1 n : Nat} {kind : BudgetKind}
    {e : PyJson} {st' : SessionState} :
    mainPhase opts st ev obj1 c1 n ≠ .budgetExceeded kind e st' := by
  intro h
  unfold mainPhase at h
  split at h
  · split at h
    rename_i obj2 c2 errs hrev
    split at h
    · exact StepResult.noConfusion h
    · exact StepResult.noConfusion h
  · split at h
    rename_i scratch c2 hdcp
    split at h
    rename_i objM c3 obs log hab
    split at h
    · exact StepResult.noConfusion h
    · exact StepResult.noConfusion h

/-- C3: on every iteration after the first — and never on the first — the
elapsed seconds and the iteration count are checked against the
caller-supplied budgets (in that order, lines 395-411); a nonzero exceeded
budget raises `JSONSurgeryError` whose attached `obj` is a deep copy
(`JSONSurgeryError.__init__`, line 138) of the session's current snapshot
at the moment of the check — the post-housekeeping snapshot, which equals
the last accepted snapshot whenever no work-in-progress callback is
configured; the deep copy is structurally equal to that snapshot. -/
theorem C3_budget_checks :
    (∀ (opts : JSONSurgeryOptions) (st : SessionState) (ev : IterEvent),
      st.num_iterations = 0 → ∀ (kind : BudgetKind) (e : PyJson)
      (st' : SessionState), stepIteration opts st ev ≠ .budgetExceeded kind e st') ∧
    (∀ (opts : JSONSurgeryOptions) (st : SessionState) (ev : IterEvent)
      (s : Nat), 1 ≤ st.num_iterations → opts.give_up_after_seconds = some s →
      s ≠ 0 → ev.seconds_elapsed > s →
      stepIteration opts st ev = .budgetExceeded .seconds
        (deep_copy_json (wipProcess opts st.obj st.counter).1
          (wipProcess opts st.obj st.counter).2).1
        { st with
          obj := (wipProcess opts st.obj st.counter).1,
          counter := (deep_copy_json (wipProcess opts st.obj st.counter).1
            (wipProcess opts st.obj st.counter).2).2,
          num_iterations := st.num_iterations + 1 }) ∧
    (∀ (opts : JSONSurgeryOptions) (st : SessionState) (ev : IterEvent)
      (k : Nat), 1 ≤ st.num_iterations →
      secondsBudgetHit opts ev.seconds_elapsed = false →
      opts.give_up_after_iterations = some k → k ≠ 0 →
      st.num_iterations + 1 > k →
      stepIteration opts st ev = .budgetExceeded .iterations
        (deep_copy_json (wipProcess opts st.obj st.counter).1
          (wipProcess opts st.obj st.counter).2).1
        { st with
          obj := (wipProcess opts st.obj st.counter).1,
          counter := (deep_copy_json (wipProcess opts st.obj st.counter).1
            (wipProcess opts st.obj st.counter).2).2,
          num_iterations := st.num_iterations + 1 }) ∧
    (∀ (opts : JSONSurgeryOptions) (obj : PyJson) (c : Nat),
      opts.on_work_in_progress = none → wipProcess opts obj c = (obj, c)) ∧
    (∀ (v : PyJson) (c : Nat), allStrKeys v = true →
      structEq (deep_copy_json v c).1 v = true) := by
  refine ⟨?_, ?_, ?_, ?_, ?_⟩
  · intro opts st ev h0 kind e st' h
    unfold stepIteration at h
    rw [h0] at h
    simp only [show ¬((0 : Nat) + 1 > 1) by omega, if_false] at h
    exact mainPhase_not_budget h
  · intro opts st ev s h1 hs hs0 helapsed
    have hn : st.num_iterations + 1 > 1 := by omega
    have hhit : secondsBudgetHit opts ev.seconds_elapsed = true := by
      unfold secondsBudgetHit
      rw [hs]
      simp only [Bool.and_eq_true, decide_eq_true_eq, ne_eq]
      exact ⟨by simpa using hs0, by simpa using helapsed⟩
    unfold stepIteration
    simp only [if_pos hn]
    unfold budgetCheck
    rw [hhit]
    rfl
  · intro opts st ev k h1 hnosec hk hk0 hexceeded
    have hn : st.num_iterations + 1 > 1 := by omega
    have hhit : iterationsBudgetHit opts (st.num_iterations + 1) = true := by
      unfold iterationsBudgetHit
      rw [hk]
      simp only [Bool.and_eq_true, decide_eq_true_eq, ne_eq]
      exact ⟨by simpa using hk0, by simpa using hexceeded⟩
    unfold stepIteration
    simp only [if_pos hn]
    unfold budgetCheck
    rw [hnosec, hhit]
    rfl
  · intro opts obj c hwip
    unfold wipProcess
    rw [hwip]
  · intro v c h
    exact structEq_deep_copy v c h

/-- Options for the C3 witness: a three-second budget. -/
def c3wOpts : JSONSurgeryOptions := ⟨none, none, some 3, none⟩

/-- Session state for the C3 witness (one iteration already done). -/
def c3wSt : SessionState :=
  ⟨.obj 0 [(.s "a", .num 1)], 1, 1, [], none, .nothingYet, true, []⟩

/-- Iteration event for the C3 witness: four seconds elapsed. -/
def c3wEv : IterEvent := ⟨4, [], "", "", true, "", ""⟩

/-- Witness for `C3_budget_checks`: on the second iteration with 4 seconds
elapsed against a 3-second budget, the session raises the seconds budget
error carrying a deep copy of the snapshot. -/
theorem C3_witness :
    stepIteration c3wOpts c3wSt c3wEv = .budgetExceeded .seconds
      (deep_copy_json (wipProcess c3wOpts c3wSt.obj c3wSt.counter).1
        (wipProcess c3wOpts c3wSt.obj c3wSt.counter).2).1
      { c3wSt with
        obj := (wipProcess c3wOpts c3wSt.obj c3wSt.counter).1,
        counter := (deep_copy_json (wipProcess c3wOpts c3wSt.obj c3wSt.counter).1
          (wipProcess c3wOpts c3wSt.obj c3wSt.counter).2).2,
        num_iterations := c3wSt.num_iterations + 1 } :=
  C3_budget_checks.2.1 c3wOpts c3wSt c3wEv 3 (by decide) rfl (by decide) (by decide)

/-! ## Claim C4 -/

/-- Exit gate, success side: when the exit validation yields no errors the
iteration returns the (possibly corrected) snapshot. -/
theorem mainPhase_exit_finished {opts : JSONSurgeryOptions} {st : SessionState}
    {ev : IterEvent} {obj1 obj2 : PyJson} {c1 c2 n : Nat}
    (hmods : ev.modifications = [])
    (hrev : runExitValidation opts obj1 c1 = (obj2, c2, [])) :
    mainPhase opts st ev obj1 c1 n =
      .finished obj2 { st with obj := obj2, counter := c2, num_iterations := n } := by
  unfold mainPhase
  rw [hmods]
  simp only [List.isEmpty_nil, if_pos]
  rw [hrev]
  rfl

/-- Exit gate, failure side: a non-empty validation error list appends a
failed-exit history entry and loops back to proposing. -/
theorem mainPhase_exit_continue {opts : JSONSurgeryOptions} {st : SessionState}
    {ev : IterEvent} {obj1 obj2 : PyJson} {c1 c2 n : Nat} {es : List String}
    (hmods : ev.modifications = [])
    (hrev : runExitValidation opts obj1 c1 = (obj2, c2, es)) (hne : es ≠ []) :
    mainPhase opts st ev obj1 c1 n =
      .continueLoop
        { obj := obj2,
          counter := c2,
          num_iterations := n,
          operations_done_so_far := st.operations_done_so_far ++
            [.failedExitValidation es],
          operation_last := some (.failedExitValidation es),
          operation_next := .fixValidationErrors,
          operation_last_was_successful := false,
          mutatedIds := st.mutatedIds } := by
  unfold mainPhase
  rw [hmods]
  simp only [List.isEmpty_nil, if_pos]
  rw [hrev]
  have hne' : es.isEmpty = false := by simpa [List.isEmpty_iff] using hne
  simp only [hne', Bool.false_eq_true, if_false]

/-- C4: when the formalization step yields zero proposed operations, the
exit gate runs: with no `on_validate_before_return` callback the session
returns the current snapshot; with a callback, it is invoked on a deep copy
of the snapshot; if it reports no errors the session returns the snapshot
(or the corrected snapshot the callback supplied); if it reports a
non-empty error list, a failed-exit entry carrying those errors is appended
to the operation history and the loop continues (returns to proposing)
instead of exiting, with `operation_next` set to the fix-validation-errors
note and the last-operation success flag cleared. -/
theorem C4_exit_gate :
    (∀ (opts : JSONSurgeryOptions) (st : SessionState) (ev : IterEvent)
      (obj1 : PyJson) (c1 n : Nat), ev.modifications = [] →
      opts.on_validate_before_return = none →
      mainPhase opts st ev obj1 c1 n =
        .finished obj1 { st with obj := obj1, counter := c1, num_iterations := n }) ∧
    (∀ (opts : JSONSurgeryOptions) (st : SessionState) (ev : IterEvent)
      (obj1 : PyJson) (c1 n : Nat)
      (f : PyJson → Option ValidationResult), ev.modifications = [] →
      opts.on_validate_before_return = some f →
      f (deep_copy_json obj1 c1).1 = none →
      mainPhase opts st ev obj1 c1 n =
        .finished obj1 { st with
          obj := obj1,
          counter := (deep_copy_json obj1 c1).2,
          num_iterations := n }) ∧
    (∀ (opts : JSONSurgeryOptions) (st : SessionState) (ev : IterEvent)
      (obj1 : PyJson) (c1 n : Nat)
      (f : PyJson → Option ValidationResult) (vr : ValidationResult)
      (oc : PyJson), ev.modifications = [] →
      opts.on_validate_before_return = some f →
      f (deep_copy_json obj1 c1).1 = some vr →
      vr.obj_corrected = some oc → vr.errors = none →
      mainPhase opts st ev obj1 c1 n =
        .finished oc { st with
          obj := oc,
          counter := (deep_copy_json obj1 c1).2,
          num_iterations := n }) ∧
    (∀ (opts : JSONSurgeryOptions) (st : SessionState) (ev : IterEvent)
      (obj1 : PyJson) (c1 n : Nat)
      (f : PyJson → Option ValidationResult) (vr : ValidationResult)
      (es : List String), ev.modifications = [] →
      opts.on_validate_before_return = some f →
      f (deep_copy_json obj1 c1).1 = some vr →
      vr.errors = some es → es ≠ [] →
      mainPhase opts st ev obj1 c1 n =
        .continueLoop
          { obj := vr.obj_corrected.getD obj1,
            counter := (deep_copy_json obj1 c1).2,
            num_iterations := n,
            operations_done_so_far := st.operations_done_so_far ++
              [.failedExitValidation es],
            operation_last := some (.failedExitValidation es),
            operation_next := .fixValidationErrors,
            operation_last_was_successful := false,
            mutatedIds := st.mutatedIds }) := by
  refine ⟨?_, ?_, ?_, ?_⟩
  · intro opts st ev obj1 c1 n hmods hval
    exact mainPhase_noop hmods hval
  · intro opts st ev obj1 c1 n f hmods hval hres
    refine mainPhase_exit_finished hmods ?_
    simp only [runExitValidation, hval, hres]
  · intro opts st ev obj1 c1 n f vr oc hmods hval hres hoc herr
    refine mainPhase_exit_finished hmods ?_
    simp only [runExitValidation, hval, hres, vrTruthy, hoc, herr,
      Option.isSome_some, Bool.true_or, if_true, Option.getD_some]
  · intro opts st ev obj1 c1 n f vr es hmods hval hres herr hne
    refine mainPhase_exit_continue hmods ?_ hne
    have hne' : es.isEmpty = false := by simpa [List.isEmpty_iff] using hne
    simp only [runExitValidation, hval, hres, vrTruthy, herr, hne',
      Option.isSome_some, Bool.or_true, if_true, Bool.false_eq_true, if_false]

/-- Exit-validation callback for the C4 witness: always reports one error. -/
def c4wF : PyJson → Option ValidationResult :=
  fun _ => some ⟨none, some ["missing field"]⟩

/-- Options for the C4 witness. -/
def c4wOpts : JSONSurgeryOptions := ⟨some c4wF, none, none, none⟩

/-- Session state for the C4 witness. -/
def c4wSt : SessionState := ⟨.obj 0 [], 1, 0, [], none, .nothingYet, true, []⟩

/-- Zero-modification iteration event for the C4 witness. -/
def c4wEv : IterEvent := ⟨0, [], "", "", true, "", ""⟩

/-- Witness for `C4_exit_gate`: a validator that reports an error makes the
zero-operation iteration append a failed-exit history entry and continue. -/
theorem C4_witness :
    mainPhase c4wOpts c4wSt c4wEv (.obj 0 []) 1 1 =
      .continueLoop
        { obj := (Option.none).getD (.obj 0 []),
          counter := (deep_copy_json (.obj 0 []) 1).2,
          num_iterations := 1,
          operations_done_so_far := c4wSt.operations_done_so_far ++
            [.failedExitValidation ["missing field"]],
          operation_last := some (.failedExitValidation ["missing field"]),
          operation_next := .fixValidationErrors,
          operation_last_was_successful := false,
          mutatedIds := c4wSt.mutatedIds } :=
  C4_exit_gate.2.2.2 c4wOpts c4wSt c4wEv (.obj 0 []) 1 1 c4wF
    ⟨none, some ["missing field"]⟩ ["missing field"] rfl rfl rfl rfl
    (fun h => List.noConfusion h)

/-! ## Claim C5 -/

/-- Does the step continue the loop (as opposed to exiting or raising)? -/
def StepResult.isContinue : StepResult → Bool
  | .continueLoop _ => true
  | _ => false

/-- C5: during the applying phase every operation of the batch is attempted
and reported: the conversation observations of a batch correspond
one-to-one, in order, to the proposed operations; an operation whose
resolution or application fails is caught — it is reported as a failure
observation, leaves the scratch copy exactly as it was, and the remaining
operations of the batch still run against that scratch copy; and an
iteration with a non-empty batch always continues the session (never
aborts), whatever the per-operation outcomes. -/
theorem C5_per_op_errors :
    (∀ (objMod : PyJson) (c : Nat) (mods : List Modification),
      ((applyBatch objMod c mods).2.2.1).map Observation.mod = mods) ∧
    (∀ (objMod : PyJson) (c : Nat) (m : Modification) (ms : List Modification)
      (e : OpErr) (c' : Nat), applyOneOp objMod c m = (.error e, c') →
      applyBatch objMod c (m :: ms) =
        ((applyBatch objMod c' ms).1, (applyBatch objMod c' ms).2.1,
          .failedOp m e :: (applyBatch objMod c' ms).2.2.1,
          (applyBatch objMod c' ms).2.2.2)) ∧
    (∀ (opts : JSONSurgeryOptions) (st : SessionState) (ev : IterEvent)
      (obj1 : PyJson) (c1 n : Nat), ev.modifications ≠ [] →
      (mainPhase opts st ev obj1 c1 n).isContinue = true) := by
  refine ⟨?_, ?_, ?_⟩
  · intro objMod c mods
    induction mods generalizing objMod c with
    | nil => rfl
    | cons m rest ih =>
        simp only [applyBatch]
        cases hres : applyOneOp objMod c m with
        | mk fst c' =>
            cases fst with
            | ok pr =>
                obtain ⟨obj', pid⟩ := pr
                simp only [List.map_cons, Observation.mod, ih]
            | error e =>
                simp only [List.map_cons, Observation.mod, ih]
  · intro objMod c m ms e c' h
    simp only [applyBatch, h]
  · intro opts st ev obj1 c1 n hmods
    unfold mainPhase
    rw [if_neg (by simpa [List.isEmpty_iff] using hmods)]
    split
    split
    by_cases hkeep : ev.should_we_keep_these_changes
    · rw [if_pos hkeep]
      rfl
    · rw [if_neg hkeep]
      rfl

/-- Scratch document for the C5 witness. -/
def c5wObj : PyJson := .obj 7 [(.s "a", .num 1)]

/-- A failing operation (append to an object parent) for the C5 witness. -/
def c5wBad : Modification := ⟨[], .i (-1), "append", "", none⟩

/-- A succeeding operation for the C5 witness. -/
def c5wGood : Modification :=
  ⟨[], .s "b", "assign", "", some (.inline_value (.numerical_value 2))⟩

/-- Witness for `C5_per_op_errors`: after the failing append the succeeding
assign still runs, and both are reported in order. -/
theorem C5_witness :
    ((applyBatch c5wObj 9 [c5wBad, c5wGood]).2.2.1).map Observation.mod =
      [c5wBad, c5wGood] ∧
    applyBatch c5wObj 9 [c5wBad, c5wGood] =
      ((applyBatch c5wObj 9 [c5wGood]).1, (applyBatch c5wObj 9 [c5wGood]).2.1,
        .failedOp c5wBad .appendOnNonArray ::
          (applyBatch c5wObj 9 [c5wGood]).2.2.1,
        (applyBatch c5wObj 9 [c5wGood]).2.2.2) :=
  ⟨C5_per_op_errors.1 c5wObj 9 [c5wBad, c5wGood],
   C5_per_op_errors.2.1 c5wObj 9 c5wBad [c5wGood] .appendOnNonArray 9 rfl⟩

/-! ## Claim C6 -/

/-- The target a successful navigation reached, if any. -/
def navTarget? : Except NavErr NavOut → Option PyJson
  | .ok r => some r.path_target
  | .error _ => none

/-- The value a successful plain lookup walk reached, if any. -/
def walkValue? : Except LookupErr PyJson → Option PyJson
  | .ok v => some v
  | .error _ => none

/-- Root document of the C6 counterexample: `{"a": {}}`.  The intermediate
value at `"a"` is *present* (an empty dict) but falsy. -/
def c6Root : PyJson := .obj 0 [(.s "a", .obj 1 [])]

/-- C6 counterexample: navigating `{"a": {}}` along `["a", "b"]` fails with
the "parent ... is null or undefined" `ValueError` naming `"b"`, even
though every parent along the path is present (`root["a"]` exists and is
`{}`): a falsy-but-present intermediate is treated as missing, and it gets
the very same error as a genuinely null intermediate (`{"a": null}`), so
the two are not distinguished. -/
theorem C6_counterexample :
    navigate_to_json_path c6Root [.s "a", .s "b"] =
      .error (.falsyParent [.s "a", .s "b"] (.s "b")) ∧
    pyLookup c6Root (.s "a") = .ok (.obj 1 []) ∧
    navigate_to_json_path (.obj 0 [(.s "a", .null)]) [.s "a", .s "b"] =
      .error (.falsyParent [.s "a", .s "b"] (.s "b")) :=
  ⟨rfl, rfl, rfl⟩

/-- C6 (amended): `navigate_to_json_path` resolves a path successfully with
target `t` exactly when the plain keyed/indexed lookup walk (no falsiness
test) reaches `t` — the falsy-parent test never changes which paths
resolve, because a falsy value has no members to look up — but the failure
reporting conflates rather than distinguishes: whenever the value about to
be subscripted is falsy (be it `null`, `false`, `0`, `""`, `[]` or a
*present* `{}`), navigation raises the descriptive null-or-undefined error
naming the path element, and only a truthy parent whose lookup fails
raises the key/index/type error of the failed subscript. -/
theorem C6_navigation :
    (∀ (root : PyJson) (path : List Koi),
      navTarget? (navigate_to_json_path root path) =
        walkValue? (plainLookupWalk root path)) ∧
    (∀ (full : List Koi) (p : Option PyJson) (k : Option Koi) (t : PyJson)
      (x : Koi) (rest : List Koi), truthy t = false →
      navigateAux full p k t (x :: rest) = .error (.falsyParent full x)) ∧
    (∀ (full : List Koi) (p : Option PyJson) (k : Option Koi) (t : PyJson)
      (x : Koi) (rest : List Koi) (e : LookupErr), truthy t = true →
      pyLookup t x = .error e →
      navigateAux full p k t (x :: rest) = .error (.lookup x e)) := by
  have haux : ∀ (path : List Koi) (full : List Koi) (p : Option PyJson)
      (k : Option Koi) (t : PyJson),
      navTarget? (navigateAux full p k t path) =
        walkValue? (plainLookupWalk t path) := by
    intro path
    induction path with
    | nil => intro full p k t; rfl
    | cons x rest ih =>
        intro full p k t
        by_cases ht : truthy t
        · simp only [navigateAux, plainLookupWalk, if_pos ht]
          cases hl : pyLookup t x with
          | error e => rfl
          | ok next => exact ih full (some t) (some x) next
        · simp only [navigateAux, plainLookupWalk, if_neg ht]
          cases hl : pyLookup t x with
          | error e => rfl
          | ok next =>
              exact absurd (truthy_of_pyLookup_ok hl) ht
  refine ⟨fun root path => haux path path none none root, ?_, ?_⟩
  · intro full p k t x rest ht
    simp only [navigateAux, ht, Bool.false_eq_true, if_false]
  · intro full p k t x rest e ht hl
    simp only [navigateAux, if_pos ht, hl]

/-- Witness for `C6_navigation`: on `{"a": {"b": 3}}` both hypotheses kinds
are dischargeable — the equivalence at a concrete root and path, and the
falsy/lookup error branches at concrete arguments. -/
theorem C6_witness :
    navTarget? (navigate_to_json_path (.obj 0 [(.s "a", .obj 1 [(.s "b", .num 3)])])
        [.s "a", .s "b"]) =
      walkValue? (plainLookupWalk (.obj 0 [(.s "a", .obj 1 [(.s "b", .num 3)])])
        [.s "a", .s "b"]) ∧
    navigateAux [.s "x"] none none PyJson.null [.s "x"] =
      .error (.falsyParent [.s "x"] (.s "x")) ∧
    navigateAux [.s "y"] none none (.obj 4 [(.s "a", .num 1)]) [.s "y"] =
      .error (.lookup (.s "y") (.keyError (.s "y"))) :=
  ⟨C6_navigation.1 (.obj 0 [(.s "a", .obj 1 [(.s "b", .num 3)])]) [.s "a", .s "b"],
   C6_navigation.2.1 [.s "x"] none none PyJson.null (.s "x") [] rfl,
   C6_navigation.2.2 [.s "y"] none none (.obj 4 [(.s "a", .num 1)]) (.s "y") []
     (.keyError (.s "y")) rfl rfl⟩

/-! ## Dictionary mutation lemmas and Claim C7 -/

theorem dictSet_absent {es : List (Koi × PyJson)} {k : Koi} {v : PyJson}
    (h : dictContains es k = false) : dictSet es k v = es ++ [(k, v)] := by
  induction es with
  | nil => rfl
  | cons kv rest ih =>
      obtain ⟨k', v'⟩ := kv
      unfold dictContains dictGet? at h
      by_cases hk : k' = k
      · rw [if_pos hk] at h
        simp at h
      · rw [if_neg hk] at h
        simp only [dictSet, if_neg hk, List.cons_append, List.cons.injEq, true_and]
        exact ih h

theorem dictSet_present_inplace {es1 es2 : List (Koi × PyJson)} {k : Koi}
    {w v : PyJson} (h : ∀ kv ∈ es1, kv.1 ≠ k) :
    dictSet (es1 ++ (k, w) :: es2) k v = es1 ++ (k, v) :: es2 := by
  induction es1 with
  | nil => simp [dictSet]
  | cons kv rest ih =>
      obtain ⟨k', v'⟩ := kv
      have hk : k' ≠ k := h (k', v') (by simp)
      simp only [List.cons_append, dictSet, if_neg hk, List.cons.injEq, true_and]
      exact ih (fun kv hkv => h kv (by simp [hkv]))

theorem dictPop_absent {es : List (Koi × PyJson)} {k : Koi}
    (h : dictContains es k = false) : dictPop es k = es := by
  induction es with
  | nil => rfl
  | cons kv rest ih =>
      obtain ⟨k', v'⟩ := kv
      unfold dictContains dictGet? at h
      by_cases hk : k' = k
      · rw [if_pos hk] at h
        simp at h
      · rw [if_neg hk] at h
        simp only [dictPop, if_neg hk, List.cons.injEq, true_and]
        exact ih h

theorem dictPop_present_inplace {es1 es2 : List (Koi × PyJson)} {k : Koi}
    {w : PyJson} (h : ∀ kv ∈ es1, kv.1 ≠ k) :
    dictPop (es1 ++ (k, w) :: es2) k = es1 ++ es2 := by
  induction es1 with
  | nil => simp [dictPop]
  | cons kv rest ih =>
      obtain ⟨k', v'⟩ := kv
      have hk : k' ≠ k := h (k', v') (by simp)
      simp only [List.cons_append, dictPop, if_neg hk, List.cons.injEq, true_and]
      exact ih (fun kv hkv => h kv (by simp [hkv]))


/-- Evaluation lemma for a single operation whose value resolution and
parent navigation succeed: the op reduces to `applyAtParent`. -/
theorem applyOneOp_eval {objMod : PyJson} {c : Nat} {m : Modification}
    {v : PyJson} {r : NavOut}
    (hrv : (resolveValue objMod c m.data).1 = .ok v)
    (ha1 : m.action ≠ "")
    (ha2 : ¬(m.action = "rename" ∧ m.new_key_name = ""))
    (hnav : navigate_to_json_path objMod m.json_path_of_parent = .ok r) :
    applyOneOp objMod c m =
      (applyAtParent objMod m v r, (resolveValue objMod c m.data).2) := by
  unfold applyOneOp
  congr 1
  split
  · rename_i e heq
    rw [hrv] at heq
    exact Except.noConfusion heq
  · rename_i value heq
    rw [hrv] at heq
    injection heq with hv
    subst hv
    rw [if_neg ha1, if_neg ha2]
    split
    · rename_i e heq2
      rw [hnav] at heq2
      exact Except.noConfusion heq2
    · rename_i r' heq2
      rw [hnav] at heq2
      injection heq2 with hr
      subst hr
      rfl

theorem mutateParent_assign_obj (koi : Koi) (nk : String) (oid : Nat)
    (es : List (Koi × PyJson)) (v : PyJson) :
    mutateParent "assign" koi nk (.obj oid es) v = .ok (.obj oid (dictSet es koi v)) := by
  cases koi <;> rfl

theorem mutateParent_delete_obj (koi : Koi) (nk : String) (oid : Nat)
    (es : List (Koi × PyJson)) (v : PyJson) :
    mutateParent "delete" koi nk (.obj oid es) v = .ok (.obj oid (dictPop es koi)) := rfl

theorem mutateParent_delete_arr (koi : Koi) (nk : String) (aid : Nat)
    (xs : List PyJson) (v : PyJson) :
    mutateParent "delete" koi nk (.arr aid xs) v =
      (match pyToInt koi with
       | .ok n =>
           match normIdx n xs.length with
           | some j => .ok (.arr aid (xs.eraseIdx j))
           | none => .error .indexError
       | .error e => .error e) := rfl

theorem mutateParent_append_obj (koi : Koi) (nk : String) (oid : Nat)
    (es : List (Koi × PyJson)) (v : PyJson) :
    mutateParent "append" koi nk (.obj oid es) v = .error .appendOnNonArray := rfl

theorem mutateParent_append_arr (koi : Koi) (nk : String) (aid : Nat)
    (xs : List PyJson) (v : PyJson) :
    mutateParent "append" koi nk (.arr aid xs) v = .ok (.arr aid (xs ++ [v])) := rfl

theorem mutateParent_insert_obj (koi : Koi) (nk : String) (oid : Nat)
    (es : List (Koi × PyJson)) (v : PyJson) :
    mutateParent "insert" koi nk (.obj oid es) v = .error .insertOnNonArray := rfl

theorem mutateParent_rename_arr (koi : Koi) (nk : String) (aid : Nat)
    (xs : List PyJson) (v : PyJson) :
    mutateParent "rename" koi nk (.arr aid xs) v = .error .renameOnArray := rfl

theorem mutateParent_rename_obj (koi : Koi) (nk : String) (oid : Nat)
    (es : List (Koi × PyJson)) (v : PyJson) :
    mutateParent "rename" koi nk (.obj oid es) v =
      .ok (.obj oid (dictPop (dictSet es (.s nk) ((dictGet? es koi).getD .null)) koi)) := rfl

/-- C7: `assign` on an object parent writes through the navigated path with
`parent[key] = value`: the key is created (appended at the end, in
insertion order) when absent and overwritten in place when present, all
other entries untouched; `delete` with a key absent from an object parent
is a no-op — the scratch tree is returned exactly unchanged, with no error
— while `delete` with an out-of-range index (beyond Python's negative-index
range) on an array parent raises `IndexError`. -/
theorem C7_assign_delete :
    (∀ (objMod : PyJson) (c : Nat) (m : Modification) (env : Envelope)
      (r : NavOut) (pid : Nat) (es : List (Koi × PyJson)),
      m.action = "assign" → m.data = some (.inline_value env) →
      navigate_to_json_path objMod m.json_path_of_parent = .ok r →
      r.path_target = .obj pid es →
      applyOneOp objMod c m =
        (.ok ((setAtPath objMod m.json_path_of_parent
            (.obj pid (dictSet es m.key_or_index
              (unpack_value_from_set_value_schema env c).1))).getD objMod, pid),
          (unpack_value_from_set_value_schema env c).2)) ∧
    (∀ (es : List (Koi × PyJson)) (k : Koi) (v : PyJson),
      dictContains es k = false → dictSet es k v = es ++ [(k, v)]) ∧
    (∀ (es1 es2 : List (Koi × PyJson)) (k : Koi) (w v : PyJson),
      (∀ kv ∈ es1, kv.1 ≠ k) →
      dictSet (es1 ++ (k, w) :: es2) k v = es1 ++ (k, v) :: es2) ∧
    (∀ (objMod : PyJson) (c : Nat) (m : Modification) (r : NavOut) (pid : Nat)
      (es : List (Koi × PyJson)),
      m.action = "delete" → m.data = none →
      navigate_to_json_path objMod m.json_path_of_parent = .ok r →
      r.path_target = .obj pid es → dictContains es m.key_or_index = false →
      applyOneOp objMod c m = (.ok (objMod, pid), c)) ∧
    (∀ (objMod : PyJson) (c : Nat) (m : Modification) (r : NavOut) (aid : Nat)
      (xs : List PyJson) (nn : Int),
      m.action = "delete" → m.data = none →
      navigate_to_json_path objMod m.json_path_of_parent = .ok r →
      r.path_target = .arr aid xs → pyToInt m.key_or_index = .ok nn →
      normIdx nn xs.length = none →
      applyOneOp objMod c m = (.error .indexError, c)) := by
  refine ⟨?_, ?_, ?_, ?_, ?_⟩
  · intro objMod c m env r pid es hact hdata hnav htarget
    have hrv : (resolveValue objMod c m.data).1 =
        .ok (unpack_value_from_set_value_schema env c).1 := by
      rw [hdata]; rfl
    have hc2 : (resolveValue objMod c m.data).2 =
        (unpack_value_from_set_value_schema env c).2 := by
      rw [hdata]; rfl
    rw [applyOneOp_eval hrv (by rw [hact]; decide)
      (fun hcontra => absurd (hact ▸ hcontra.1) (by decide)) hnav, hc2]
    unfold applyAtParent
    rw [htarget, hact]
    simp only [isContainer, if_pos, mutateParent_assign_obj, oidOf]
  · intro es k v h
    exact dictSet_absent h
  · intro es1 es2 k w v h
    exact dictSet_present_inplace h
  · intro objMod c m r pid es hact hdata hnav htarget habsent
    have hrv : (resolveValue objMod c m.data).1 = .ok .null := by rw [hdata]; rfl
    have hc2 : (resolveValue objMod c m.data).2 = c := by rw [hdata]; rfl
    rw [applyOneOp_eval hrv (by rw [hact]; decide)
      (fun hcontra => absurd (hact ▸ hcontra.1) (by decide)) hnav, hc2]
    unfold applyAtParent
    rw [htarget, hact]
    have hself := setAtPath_self hnav (by rw [htarget]; rfl)
    rw [htarget] at hself
    simp only [isContainer, if_pos, mutateParent_delete_obj, oidOf,
      dictPop_absent habsent, hself, Option.getD_some]
  · intro objMod c m r aid xs nn hact hdata hnav htarget hint hoob
    have hrv : (resolveValue objMod c m.data).1 = .ok .null := by rw [hdata]; rfl
    have hc2 : (resolveValue objMod c m.data).2 = c := by rw [hdata]; rfl
    rw [applyOneOp_eval hrv (by rw [hact]; decide)
      (fun hcontra => absurd (hact ▸ hcontra.1) (by decide)) hnav, hc2]
    unfold applyAtParent
    rw [htarget, hact]
    simp only [isContainer, if_pos, mutateParent_delete_arr, hint, hoob]

/-- Witness for `C7_assign_delete` at concrete inputs: assign creates the
absent key `"b"`, delete of the absent key `"zz"` is a no-op, and delete at
index 5 of a two-element array is an `IndexError`. -/
theorem C7_witness :
    applyOneOp (.obj 7 [(.s "a", .num 1)]) 3
      ⟨[], .s "b", "assign", "", some (.inline_value (.numerical_value 2))⟩ =
      (.ok (.obj 7 [(.s "a", .num 1), (.s "b", .num 2)], 7), 3) ∧
    applyOneOp (.obj 7 [(.s "a", .num 1)]) 3 ⟨[], .s "zz", "delete", "", none⟩ =
      (.ok (.obj 7 [(.s "a", .num 1)], 7), 3) ∧
    applyOneOp (.arr 7 [.num 1, .num 2]) 3 ⟨[], .i 5, "delete", "", none⟩ =
      (.error .indexError, 3) :=
  ⟨C7_assign_delete.1 (.obj 7 [(.s "a", .num 1)]) 3
      ⟨[], .s "b", "assign", "", some (.inline_value (.numerical_value 2))⟩
      (.numerical_value 2) ⟨none, none, .obj 7 [(.s "a", .num 1)]⟩ 7
      [(.s "a", .num 1)] rfl rfl rfl rfl,
   C7_assign_delete.2.2.2.1 (.obj 7 [(.s "a", .num 1)]) 3
      ⟨[], .s "zz", "delete", "", none⟩ ⟨none, none, .obj 7 [(.s "a", .num 1)]⟩ 7
      [(.s "a", .num 1)] rfl rfl rfl rfl rfl,
   C7_assign_delete.2.2.2.2 (.arr 7 [.num 1, .num 2]) 3
      ⟨[], .i 5, "delete", "", none⟩ ⟨none, none, .arr 7 [.num 1, .num 2]⟩ 7
      [.num 1, .num 2] 5 rfl rfl rfl rfl rfl rfl⟩

/-! ## Claim C8 -/

/-- C8: `append` and `insert` on a parent that resolves to an object raise
`InvalidOperationError` ("can only be applied to arrays"), `rename` on a
parent that resolves to an array raises, and `rename` with an empty
`new_key_name` raises the missing-field error even before navigation; every
such rejection happens before any mutation: an operation that errors leaves
the scratch copy exactly as it was and logs no mutated container. -/
theorem C8_structural_rejections :
    (∀ (objMod v : PyJson) (c : Nat) (m : Modification) (r : NavOut)
      (pid : Nat) (es : List (Koi × PyJson)),
      m.action = "append" → (resolveValue objMod c m.data).1 = .ok v →
      navigate_to_json_path objMod m.json_path_of_parent = .ok r →
      r.path_target = .obj pid es →
      applyOneOp objMod c m = (.error .appendOnNonArray, (resolveValue objMod c m.data).2)) ∧
    (∀ (objMod v : PyJson) (c : Nat) (m : Modification) (r : NavOut)
      (pid : Nat) (es : List (Koi × PyJson)),
      m.action = "insert" → (resolveValue objMod c m.data).1 = .ok v →
      navigate_to_json_path objMod m.json_path_of_parent = .ok r →
      r.path_target = .obj pid es →
      applyOneOp objMod c m = (.error .insertOnNonArray, (resolveValue objMod c m.data).2)) ∧
    (∀ (objMod v : PyJson) (c : Nat) (m : Modification) (r : NavOut)
      (aid : Nat) (xs : List PyJson),
      m.action = "rename" → m.new_key_name ≠ "" →
      (resolveValue objMod c m.data).1 = .ok v →
      navigate_to_json_path objMod m.json_path_of_parent = .ok r →
      r.path_target = .arr aid xs →
      applyOneOp objMod c m = (.error .renameOnArray, (resolveValue objMod c m.data).2)) ∧
    (∀ (objMod v : PyJson) (c : Nat) (m : Modification),
      m.action = "rename" → m.new_key_name = "" →
      (resolveValue objMod c m.data).1 = .ok v →
      applyOneOp objMod c m = (.error .missingNewKeyName, (resolveValue objMod c m.data).2)) ∧
    (∀ (objMod : PyJson) (c : Nat) (m : Modification) (e : OpErr),
      (applyOneOp objMod c m).1 = .error e →
      applyBatch objMod c [m] =
        (objMod, (applyOneOp objMod c m).2, [.failedOp m e], [])) := by
  refine ⟨?_, ?_, ?_, ?_, ?_⟩
  · intro objMod v c m r pid es hact hrv hnav htarget
    rw [applyOneOp_eval hrv (by rw [hact]; decide)
      (fun hcontra => absurd (hact ▸ hcontra.1) (by decide)) hnav]
    unfold applyAtParent
    rw [htarget, hact]
    simp only [isContainer, if_pos, mutateParent_append_obj]
  · intro objMod v c m r pid es hact hrv hnav htarget
    rw [applyOneOp_eval hrv (by rw [hact]; decide)
      (fun hcontra => absurd (hact ▸ hcontra.1) (by decide)) hnav]
    unfold applyAtParent
    rw [htarget, hact]
    simp only [isContainer, if_pos, mutateParent_insert_obj]
  · intro objMod v c m r aid xs hact hnk hrv hnav htarget
    rw [applyOneOp_eval hrv (by rw [hact]; decide)
      (fun hcontra => hnk hcontra.2) hnav]
    unfold applyAtParent
    rw [htarget, hact]
    simp only [isContainer, if_pos, mutateParent_rename_arr]
  · intro objMod v c m hact hnk hrv
    unfold applyOneOp
    congr 1
    split
    · rename_i e heq
      rw [hrv] at heq
      exact Except.noConfusion heq
    · rename_i value heq
      rw [hact, hnk]
      rfl
  · intro objMod c m e h
    unfold applyBatch
    cases hone : applyOneOp objMod c m with
    | mk fst c' =>
        have h1 : fst = .error e := by
          have := congrArg Prod.fst hone
          simp at this
          rw [← this]
          exact h
        subst h1
        rfl

/-- Witness for `C8_structural_rejections` at concrete inputs: append to an
object parent errors, rename with an empty new key errors, and the failed
operation leaves the scratch copy untouched with an empty mutation log. -/
theorem C8_witness :
    applyOneOp (.obj 7 [(.s "a", .num 1)]) 3 ⟨[], .i (-1), "append", "",
        some (.inline_value (.numerical_value 2))⟩ =
      (.error .appendOnNonArray, 3) ∧
    applyOneOp (.obj 7 [(.s "a", .num 1)]) 3 ⟨[], .s "a", "rename", "", none⟩ =
      (.error .missingNewKeyName, 3) ∧
    applyBatch (.obj 7 [(.s "a", .num 1)]) 3
        [⟨[], .i (-1), "append", "", some (.inline_value (.numerical_value 2))⟩] =
      (.obj 7 [(.s "a", .num 1)], 3,
        [.failedOp ⟨[], .i (-1), "append", "", some (.inline_value (.numerical_value 2))⟩
          .appendOnNonArray], []) :=
  ⟨C8_structural_rejections.1 (.obj 7 [(.s "a", .num 1)]) (.num 2) 3
      ⟨[], .i (-1), "append", "", some (.inline_value (.numerical_value 2))⟩
      ⟨none, none, .obj 7 [(.s "a", .num 1)]⟩ 7 [(.s "a", .num 1)] rfl rfl rfl rfl,
   C8_structural_rejections.2.2.2.1 (.obj 7 [(.s "a", .num 1)]) .null 3
      ⟨[], .s "a", "rename", "", none⟩ rfl rfl rfl,
   C8_structural_rejections.2.2.2.2 (.obj 7 [(.s "a", .num 1)]) 3
      ⟨[], .i (-1), "append", "", some (.inline_value (.numerical_value 2))⟩
      .appendOnNonArray rfl⟩

/-! ## Claim C9 -/

theorem dictGet?_dictSet_ne {es : List (Koi × PyJson)} {k k' : Koi} {v : PyJson}
    (h : k ≠ k') : dictGet? (dictSet es k' v) k = dictGet? es k := by
  induction es with
  | nil =>
      simp only [dictSet, dictGet?]
      rw [if_neg (fun hh => h hh.symm)]
  | cons kv rest ih =>
      obtain ⟨k0, v0⟩ := kv
      by_cases hk : k0 = k'
      · simp only [dictSet, if_pos hk, dictGet?]
        by_cases hkk : k0 = k
        · exact absurd (hkk ▸ hk) (fun hh => h hh)
        · rw [if_neg hkk, if_neg hkk]
      · simp only [dictSet, if_neg hk, dictGet?]
        by_cases hkk : k0 = k
        · rw [if_pos hkk, if_pos hkk]
        · rw [if_neg hkk, if_neg hkk]
          exact ih

/-- C9: a `rename` on an object parent never raises, whatever the old key:
it executes `parent[new_key_name] = parent.get(key_or_index)` followed by
`parent.pop(key_or_index, None)`.  Hence with a `key_or_index` absent from
the object and distinct from the new key, it creates `new_key_name` bound
to `null` — appended at the end when the new key is itself fresh, the other
entries untouched; and when `new_key_name` equals a present string
`key_or_index` (a rename to itself), the existing key is removed
entirely. -/
theorem C9_rename_semantics :
    (∀ (objMod v : PyJson) (c : Nat) (m : Modification) (r : NavOut)
      (pid : Nat) (es : List (Koi × PyJson)),
      m.action = "rename" → m.new_key_name ≠ "" →
      (resolveValue objMod c m.data).1 = .ok v →
      navigate_to_json_path objMod m.json_path_of_parent = .ok r →
      r.path_target = .obj pid es →
      applyOneOp objMod c m =
        (.ok ((setAtPath objMod m.json_path_of_parent
            (.obj pid (dictPop
              (dictSet es (.s m.new_key_name)
                ((dictGet? es m.key_or_index).getD .null))
              m.key_or_index))).getD objMod, pid),
          (resolveValue objMod c m.data).2)) ∧
    (∀ (es : List (Koi × PyJson)) (koi : Koi) (nk : String),
      dictContains es koi = false → koi ≠ .s nk →
      dictPop (dictSet es (.s nk) ((dictGet? es koi).getD .null)) koi =
        dictSet es (.s nk) .null) ∧
    (∀ (es : List (Koi × PyJson)) (koi : Koi) (nk : String),
      dictContains es koi = false → koi ≠ .s nk →
      dictContains es (.s nk) = false →
      dictPop (dictSet es (.s nk) ((dictGet? es koi).getD .null)) koi =
        es ++ [(.s nk, .null)]) ∧
    (∀ (es1 es2 : List (Koi × PyJson)) (nk : String) (w : PyJson),
      (∀ kv ∈ es1, kv.1 ≠ Koi.s nk) →
      dictPop
        (dictSet (es1 ++ (.s nk, w) :: es2) (.s nk)
          ((dictGet? (es1 ++ (.s nk, w) :: es2) (.s nk)).getD .null))
        (.s nk) = es1 ++ es2) := by
  have habs : ∀ (es : List (Koi × PyJson)) (koi : Koi) (nk : String),
      dictContains es koi = false → koi ≠ .s nk →
      dictPop (dictSet es (.s nk) ((dictGet? es koi).getD .null)) koi =
        dictSet es (.s nk) .null := by
    intro es koi nk habsent hne
    have hget : dictGet? es koi = none := by
      unfold dictContains at habsent
      exact Option.not_isSome_iff_eq_none.mp (by simp [habsent])
    rw [hget]
    simp only [Option.getD_none]
    refine dictPop_absent ?_
    unfold dictContains
    rw [dictGet?_dictSet_ne hne, hget]
    rfl
  refine ⟨?_, habs, ?_, ?_⟩
  · intro objMod v c m r pid es hact hnk hrv hnav htarget
    rw [applyOneOp_eval hrv (by rw [hact]; decide)
      (fun hcontra => hnk hcontra.2) hnav]
    unfold applyAtParent
    rw [htarget, hact]
    simp only [isContainer, if_pos, mutateParent_rename_obj, oidOf]
  · intro es koi nk habsent hne hnew
    rw [habs es koi nk habsent hne]
    exact dictSet_absent hnew
  · intro es1 es2 nk w hes1
    have hget : dictGet? (es1 ++ (.s nk, w) :: es2) (.s nk) = some w := by
      induction es1 with
      | nil => simp [dictGet?]
      | cons kv rest ih =>
          obtain ⟨k0, v0⟩ := kv
          have hk : k0 ≠ .s nk := hes1 (k0, v0) (by simp)
          simp only [List.cons_append, dictGet?, if_neg hk]
          exact ih (fun kv hkv => hes1 kv (by simp [hkv]))
    rw [hget]
    simp only [Option.getD_some]
    rw [dictSet_get_self hget]
    exact dictPop_present_inplace hes1

/-- Witness for C9: on the object `{"a": 1}`, a rename of `"a"` to `"a"`
itself succeeds and the dict-level computation removes the key; a rename of
an absent integer key to a fresh name appends a null binding. -/
theorem C9_witness :
    applyOneOp (.obj 0 [(.s "a", .num 1)]) 5
        ⟨[], .s "a", "rename", "a", none⟩ =
      (.ok ((setAtPath (.obj 0 [(.s "a", .num 1)]) []
          (.obj 0 (dictPop
            (dictSet [(.s "a", .num 1)] (.s "a")
              ((dictGet? [(.s "a", .num 1)] (.s "a")).getD .null))
            (.s "a")))).getD (.obj 0 [(.s "a", .num 1)]), 0),
        (resolveValue (.obj 0 [(.s "a", .num 1)]) 5 none).2) ∧
    dictPop
        (dictSet [(Koi.s "b", PyJson.num 2)] (.s "nk")
          ((dictGet? [(Koi.s "b", PyJson.num 2)] (.i 7)).getD .null))
        (.i 7) =
      [(Koi.s "b", PyJson.num 2)] ++ [(Koi.s "nk", PyJson.null)] ∧
    dictPop
        (dictSet ([] ++ (Koi.s "a", PyJson.num 1) :: [])
          (.s "a")
          ((dictGet? ([] ++ (Koi.s "a", PyJson.num 1) :: [])
            (.s "a")).getD .null))
        (.s "a") = [] ++ [] := by
  refine ⟨?_, ?_, ?_⟩
  · exact C9_rename_semantics.1 (.obj 0 [(.s "a", .num 1)]) .null 5
      ⟨[], .s "a", "rename", "a", none⟩
      ⟨none, none, .obj 0 [(.s "a", .num 1)]⟩ 0 [(.s "a", .num 1)]
      rfl (by decide) rfl rfl rfl
  · exact C9_rename_semantics.2.2.1 [(.s "b", .num 2)] (.i 7) "nk"
      rfl (fun h => Koi.noConfusion h) rfl
  · exact C9_rename_semantics.2.2.2 [] [] "a" (.num 1)
      (fun kv hkv => absurd hkv (List.not_mem_nil kv))

/-! ## Claim C10 -/

/-- C10: a budget set to `0` (like an absent budget) disables its check,
because lines 397 and 406 guard each comparison with the truthiness of the
configured value: with `give_up_after_seconds` absent or `0` the seconds
check never fires, with `give_up_after_iterations` absent or `0` the
iteration check never fires, with both disabled `budgetCheck` answers
nothing whatever the clock and the iteration count, and a whole
`json_surgery` run can then never end in a budget error, however long the
trace. -/
theorem C10_zero_budget_disables :
    (∀ (opts : JSONSurgeryOptions) (s : Nat),
      opts.give_up_after_seconds = none ∨ opts.give_up_after_seconds = some 0 →
      secondsBudgetHit opts s = false) ∧
    (∀ (opts : JSONSurgeryOptions) (n : Nat),
      opts.give_up_after_iterations = none ∨
        opts.give_up_after_iterations = some 0 →
      iterationsBudgetHit opts n = false) ∧
    (∀ (opts : JSONSurgeryOptions) (n s : Nat),
      opts.give_up_after_seconds = none ∨ opts.give_up_after_seconds = some 0 →
      (opts.give_up_after_iterations = none ∨
        opts.give_up_after_iterations = some 0) →
      budgetCheck opts n s = none) ∧
    (∀ (opts : JSONSurgeryOptions) (input : PyJson) (c0 : Nat)
      (trace : List IterEvent),
      opts.give_up_after_seconds = none ∨ opts.give_up_after_seconds = some 0 →
      (opts.give_up_after_iterations = none ∨
        opts.give_up_after_iterations = some 0) →
      (json_surgery opts input c0 trace).budgetKind = none) := by
  have h1 : ∀ (opts : JSONSurgeryOptions) (s : Nat),
      opts.give_up_after_seconds = none ∨ opts.give_up_after_seconds = some 0 →
      secondsBudgetHit opts s = false := by
    intro opts s h
    rcases h with h | h <;> simp [secondsBudgetHit, h]
  have h2 : ∀ (opts : JSONSurgeryOptions) (n : Nat),
      opts.give_up_after_iterations = none ∨
        opts.give_up_after_iterations = some 0 →
      iterationsBudgetHit opts n = false := by
    intro opts n h
    rcases h with h | h <;> simp [iterationsBudgetHit, h]
  have h3 : ∀ (opts : JSONSurgeryOptions) (n s : Nat),
      opts.give_up_after_seconds = none ∨ opts.give_up_after_seconds = some 0 →
      (opts.give_up_after_iterations = none ∨
        opts.give_up_after_iterations = some 0) →
      budgetCheck opts n s = none := by
    intro opts n s hs hi
    unfold budgetCheck
    rw [h1 opts s hs, h2 opts n hi]
    rfl
  refine ⟨h1, h2, h3, ?_⟩
  intro opts input c0 trace hs hi
  have hstep : ∀ (st : SessionState) (ev : IterEvent) (k : BudgetKind)
      (e : PyJson) (st' : SessionState),
      stepIteration opts st ev ≠ .budgetExceeded k e st' := by
    intro st ev k e st' h
    unfold stepIteration at h
    by_cases hn : st.num_iterations + 1 > 1
    · simp only [if_pos hn, h3 opts (st.num_iterations + 1) ev.seconds_elapsed
        hs hi] at h
      exact mainPhase_not_budget h
    · simp only [if_neg hn] at h
      exact mainPhase_not_budget h
  have hrun : ∀ (trace : List IterEvent) (st : SessionState) (k : BudgetKind)
      (e : PyJson) (st' : SessionState),
      runSession opts st trace ≠ .budgetExceeded k e st' := by
    intro trace
    induction trace with
    | nil =>
        intro st k e st' h
        exact RunOutcome.noConfusion h
    | cons ev rest ih =>
        intro st k e st' h
        unfold runSession at h
        cases hsi : stepIteration opts st ev with
        | continueLoop st2 =>
            simp only [hsi] at h
            exact ih st2 k e st' h
        | finished r st2 =>
            simp only [hsi] at h
            exact RunOutcome.noConfusion h
        | budgetExceeded k2 e2 st2 =>
            exact hstep st ev k2 e2 st2 hsi
  by_cases hnull : input = PyJson.null
  · subst hnull
    rfl
  · rw [json_surgery_not_null hnull]
    cases hout : runSession opts
        (initState (deep_copy_json input c0).1 (deep_copy_json input c0).2)
        trace with
    | finished r st2 => rfl
    | budgetExceeded k2 e2 st2 => exact absurd hout (hrun trace _ k2 e2 st2)
    | suspended st2 => rfl

/-- Witness for C10: with both budgets explicitly set to `0`, neither check
fires at iteration 50 after 1000000 seconds, and a two-iteration run with
enormous elapsed times ends without a budget error. -/
theorem C10_witness :
    secondsBudgetHit ⟨none, none, some 0, some 0⟩ 1000000 = false ∧
    iterationsBudgetHit ⟨none, none, some 0, some 0⟩ 50 = false ∧
    budgetCheck ⟨none, none, some 0, some 0⟩ 50 1000000 = none ∧
    (json_surgery ⟨none, none, some 0, some 0⟩ (.obj 0 []) 1
      [⟨999999, [⟨[], .s "x", "assign", "", none⟩], "", "", true, "", ""⟩,
       ⟨999999, [⟨[], .s "x", "assign", "", none⟩], "", "", false, "", ""⟩]
      ).budgetKind = none := by
  refine ⟨?_, ?_, ?_, ?_⟩
  · exact C10_zero_budget_disables.1 ⟨none, none, some 0, some 0⟩ 1000000
      (Or.inr rfl)
  · exact C10_zero_budget_disables.2.1 ⟨none, none, some 0, some 0⟩ 50
      (Or.inr rfl)
  · exact C10_zero_budget_disables.2.2.1 ⟨none, none, some 0, some 0⟩ 50 1000000
      (Or.inr rfl) (Or.inr rfl)
  · exact C10_zero_budget_disables.2.2.2 ⟨none, none, some 0, some 0⟩
      (.obj 0 []) 1
      [⟨999999, [⟨[], .s "x", "assign", "", none⟩], "", "", true, "", ""⟩,
       ⟨999999, [⟨[], .s "x", "assign", "", none⟩], "", "", false, "", ""⟩]
      (Or.inr rfl) (Or.inr rfl)
